import Mathlib

/-!
# Verification of the Photo_API_Proj domain logic

A shallow embedding of the business-records API for a photography studio
(`app/models.py`, `app/schemas.py`, `app/routers/*.py`) together with proofs
about the payment-acceptance rule, balance/status derivation, list ordering,
partial updates, cascades and the overpayment invariant.

Modelling conventions:
* Monetary values (`DECIMAL(10,2)`, handled via Python `Decimal` throughout
  the code) are embedded as `Int` numbers of cents: exact decimal arithmetic
  with two fractional digits is exactly integer arithmetic on cents.
* `Date` and `DateTime` columns are embedded as `Nat` ordinals; only their
  ordering matters to the logic.
* Each SQLAlchemy table is a `List` of records inside a `DB` structure; the
  query idioms of the routers (`filter ... first()`, `func.sum`,
  `order_by ... offset ... limit`, ORM cascade configuration from
  `models.py`) are embedded as the corresponding list operations.
* `HTTPException` raising endpoints become `Except ApiError` functions;
  a failed request leaves the store unchanged.
-/

deriving instance DecidableEq for Except

namespace PhotoAPI

/-- Model of `app/models.py` `Client`: surrogate id, name, unique email, optional phone. -/
structure Client where
  client_id : Nat
  name : String
  email : String
  phone : Option String
deriving DecidableEq, Repr

/-- Model of `app/models.py` `Shoot`: belongs to a client, has a date and optional location. -/
structure Shoot where
  shoot_id : Nat
  client_id : Nat
  shoot_date : Nat
  location : Option String
deriving DecidableEq, Repr

/-- Model of `app/models.py` `Package`: name, optional description, price, active flag. -/
structure Package where
  package_id : Nat
  name : String
  description : Option String
  price : Int
  is_active : Bool
deriving DecidableEq, Repr

/-- Model of `app/models.py` `Invoice`: owned by a client, optional shoot/package
references, amount owed (cents), free-text status defaulting to "draft",
issued date, optional due date. -/
structure Invoice where
  invoice_id : Nat
  client_id : Nat
  shoot_id : Option Nat
  package_id : Option Nat
  amount : Int
  status : String
  issued_date : Nat
  due_date : Option Nat
deriving DecidableEq, Repr

/-- Model of `app/models.py` `Payment`: applied against one invoice; amount in cents,
optional method label, `paid_at` timestamp. -/
structure Payment where
  payment_id : Nat
  invoice_id : Nat
  amount : Int
  method : Option String
  paid_at : Nat
deriving DecidableEq, Repr

/-- The relational store: one list per table. -/
structure DB where
  clients : List Client
  shoots : List Shoot
  packages : List Package
  invoices : List Invoice
  payments : List Payment
deriving DecidableEq, Repr

/-- The distinguishable failures raised by the routers (`HTTPException`s with
their detail strings) plus the FastAPI `Query`-constraint rejection. -/
inductive ApiError where
  | invalidAmount
  | invoiceNotFound
  | paymentNotFound
  | clientNotFound
  | shootNotFound
  | packageNotFound
  | overpaymentError
  | duplicateEmail
  | clientDoesNotExist
  | shootDoesNotExist
  | packageDoesNotExist
  | validationError
deriving DecidableEq, Repr

/-- Model of `db.query(Client).filter(Client.client_id == id).first()`. -/
def findClient (db : DB) (id : Nat) : Option Client :=
  db.clients.find? (fun c => c.client_id == id)

/-- Model of `db.query(Shoot).filter(Shoot.shoot_id == id).first()`. -/
def findShoot (db : DB) (id : Nat) : Option Shoot :=
  db.shoots.find? (fun s => s.shoot_id == id)

/-- Model of `db.query(Package).filter(Package.package_id == id).first()`. -/
def findPackage (db : DB) (id : Nat) : Option Package :=
  db.packages.find? (fun p => p.package_id == id)

/-- Model of `db.query(Invoice).filter(Invoice.invoice_id == id).first()`. -/
def findInvoice (db : DB) (id : Nat) : Option Invoice :=
  db.invoices.find? (fun i => i.invoice_id == id)

/-- Model of `db.query(Payment).filter(Payment.payment_id == id).first()`. -/
def findPayment (db : DB) (id : Nat) : Option Payment :=
  db.payments.find? (fun p => p.payment_id == id)

/-- Model of `SELECT COALESCE(SUM(amount), 0) FROM payments WHERE invoice_id = iid`
over an explicit payment list. -/
def sumFor (ps : List Payment) (iid : Nat) : Int :=
  ((ps.filter (fun p => p.invoice_id == iid)).map Payment.amount).sum

/-- The paid total of an invoice, as computed in `create_payment` and
`get_invoice_summary`. -/
def sumPayments (db : DB) (iid : Nat) : Int :=
  sumFor db.payments iid

/-- Largest payment id in use (0 when none); autoincrement allocates the
successor. -/
def maxPaymentId : List Payment → Nat
  | [] => 0
  | p :: ps => max p.payment_id (maxPaymentId ps)

/-- Largest client id in use. -/
def maxClientId : List Client → Nat
  | [] => 0
  | c :: cs => max c.client_id (maxClientId cs)

/-- Largest shoot id in use. -/
def maxShootId : List Shoot → Nat
  | [] => 0
  | s :: ss => max s.shoot_id (maxShootId ss)

/-- Largest package id in use. -/
def maxPackageId : List Package → Nat
  | [] => 0
  | p :: ps => max p.package_id (maxPackageId ps)

/-- Largest invoice id in use. -/
def maxInvoiceId : List Invoice → Nat
  | [] => 0
  | i :: is' => max i.invoice_id (maxInvoiceId is')

/-- Model of `app/schemas.py` `PaymentCreate`: invoice id, amount, optional method,
optional explicit `paid_at` (server time used when absent). -/
structure PaymentCreate where
  invoice_id : Nat
  amount : Int
  method : Option String
  paid_at : Option Nat
deriving DecidableEq, Repr

/-- Model of `app/routers/payments.py` `create_payment`: reject non-positive amounts,
then resolve the invoice (404 when absent), then compare the prospective
paid total against the invoice amount in exact arithmetic, rejecting strict
overpayment; otherwise persist the payment.  `now` stands for the server
clock supplying the `paid_at` default. -/
def create_payment (db : DB) (now : Nat) (payload : PaymentCreate) :
    Except ApiError (DB × Payment) :=
  if payload.amount ≤ 0 then
    .error .invalidAmount
  else
    match findInvoice db payload.invoice_id with
    | none => .error .invoiceNotFound
    | some invoice =>
      let total_paid := sumPayments db invoice.invoice_id
      let new_total := total_paid + payload.amount
      if invoice.amount < new_total then
        .error .overpaymentError
      else
        let payment : Payment :=
          { payment_id := maxPaymentId db.payments + 1
            invoice_id := payload.invoice_id
            amount := payload.amount
            method := payload.method
            paid_at := payload.paid_at.getD now }
        .ok ({ db with payments := db.payments ++ [payment] }, payment)

/-- Model of `app/routers/payments.py` `delete_payment`: 404 when absent, otherwise
remove the row. -/
def delete_payment (db : DB) (id : Nat) : Except ApiError DB :=
  match findPayment db id with
  | none => .error .paymentNotFound
  | some _ => .ok { db with payments := db.payments.filter (fun p => p.payment_id ≠ id) }

/-- Model of `app/schemas.py` `InvoiceSummary`. -/
structure InvoiceSummary where
  invoice_id : Nat
  amount : Int
  total_paid : Int
  balance : Int
  status : String
deriving DecidableEq, Repr

/-- Model of `app/routers/invoices.py` `get_invoice_summary`: resolve the invoice,
sum its payments, and derive balance and status with the
paid / partial / unpaid thresholds. -/
def get_invoice_summary (db : DB) (invoice_id : Nat) :
    Except ApiError InvoiceSummary :=
  match findInvoice db invoice_id with
  | none => .error .invoiceNotFound
  | some invoice =>
    let total_paid := sumPayments db invoice.invoice_id
    let balance := invoice.amount - total_paid
    let status :=
      if balance = 0 then "paid"
      else if 0 < total_paid ∧ total_paid < invoice.amount then "partial"
      else "unpaid"
    .ok { invoice_id := invoice.invoice_id
          amount := invoice.amount
          total_paid := total_paid
          balance := balance
          status := status }

/-- Model of `app/schemas.py` `ClientCreate`. -/
structure ClientCreate where
  name : String
  email : String
  phone : Option String
deriving DecidableEq, Repr

/-- Model of `app/schemas.py` `ClientUpdate` after `model_dump(exclude_unset=True)`:
the outer `Option` is field presence in the payload (`none` = omitted, left
untouched); for the nullable `phone` column the inner `Option` is the value
actually written. -/
structure ClientUpdate where
  name : Option String
  email : Option String
  phone : Option (Option String)
deriving DecidableEq, Repr

/-- Model of `app/routers/clients.py` `create_client`: 409 when another client already
uses the email, otherwise insert with a fresh id. -/
def create_client (db : DB) (payload : ClientCreate) :
    Except ApiError (DB × Client) :=
  match db.clients.find? (fun c => c.email == payload.email) with
  | some _ => .error .duplicateEmail
  | none =>
    let c : Client :=
      { client_id := maxClientId db.clients + 1
        name := payload.name
        email := payload.email
        phone := payload.phone }
    .ok ({ db with clients := db.clients ++ [c] }, c)

/-- The record produced by `update_client`'s `setattr` loop. -/
def applyClientUpdate (c : Client) (payload : ClientUpdate) : Client :=
  { client_id := c.client_id
    name := payload.name.getD c.name
    email := payload.email.getD c.email
    phone := match payload.phone with | none => c.phone | some v => v }

/-- Model of `app/routers/clients.py` `update_client`: 404 when absent; when the email
field is present, 409 if a different client already uses that email;
otherwise apply exactly the supplied fields. -/
def update_client (db : DB) (id : Nat) (payload : ClientUpdate) :
    Except ApiError (DB × Client) :=
  match findClient db id with
  | none => .error .clientNotFound
  | some c =>
    let clash : Option Client :=
      match payload.email with
      | none => none
      | some e => db.clients.find? (fun c2 => c2.email == e && c2.client_id != id)
    match clash with
    | some _ => .error .duplicateEmail
    | none =>
      let c2 := applyClientUpdate c payload
      .ok ({ db with clients :=
              db.clients.map (fun x => if x.client_id == id then c2 else x) }, c2)

/-- Model of the `ondelete="SET NULL"` effect on `Invoice.shoot_id` when a
client's shoots are cascade-deleted (`Shoot.invoices` has no delete
cascade): an invoice referencing a shoot owned by the deleted client keeps
existing with a cleared shoot reference; any other invoice is untouched. -/
def clearDeletedShootRef (db : DB) (cid : Nat) (i : Invoice) : Invoice :=
  if i.shoot_id.any (fun sid =>
      db.shoots.any (fun s => s.client_id == cid && s.shoot_id == sid)) then
    { i with shoot_id := none }
  else i

/-- Model of `app/routers/clients.py` `delete_client` with the ORM cascade policy of
`app/models.py` (`cascade="all, delete-orphan"` on `Client.shoots` and
`Client.invoices`, and on `Invoice.payments`): deleting a client removes its
shoots, its invoices, and the payments of those invoices.  Because the
client's shoots are deleted and `Invoice.shoot_id` is `ondelete="SET NULL"`,
a surviving invoice of another client that references one of those shoots
has its shoot reference cleared. -/
def delete_client (db : DB) (id : Nat) : Except ApiError DB :=
  match findClient db id with
  | none => .error .clientNotFound
  | some _ =>
    let deadInvoice := fun (iid : Nat) =>
      db.invoices.any (fun i => i.client_id == id && i.invoice_id == iid)
    .ok { db with
          clients := db.clients.filter (fun c => c.client_id ≠ id)
          shoots := db.shoots.filter (fun s => s.client_id ≠ id)
          invoices := (db.invoices.filter (fun i => i.client_id ≠ id)).map
            (clearDeletedShootRef db id)
          payments := db.payments.filter (fun p => ! deadInvoice p.invoice_id) }

/-- Model of `app/schemas.py` `ShootCreate`. -/
structure ShootCreate where
  client_id : Nat
  shoot_date : Nat
  location : Option String
deriving DecidableEq, Repr

/-- Model of `app/schemas.py` `ShootUpdate` after `exclude_unset`. -/
structure ShootUpdate where
  shoot_date : Option Nat
  location : Option (Option String)
deriving DecidableEq, Repr

/-- Model of `app/routers/shoots.py` `create_shoot`: the client must exist. -/
def create_shoot (db : DB) (payload : ShootCreate) :
    Except ApiError (DB × Shoot) :=
  match findClient db payload.client_id with
  | none => .error .clientDoesNotExist
  | some _ =>
    let s : Shoot :=
      { shoot_id := maxShootId db.shoots + 1
        client_id := payload.client_id
        shoot_date := payload.shoot_date
        location := payload.location }
    .ok ({ db with shoots := db.shoots ++ [s] }, s)

/-- The record produced by `update_shoot`'s `setattr` loop. -/
def applyShootUpdate (s : Shoot) (payload : ShootUpdate) : Shoot :=
  { shoot_id := s.shoot_id
    client_id := s.client_id
    shoot_date := payload.shoot_date.getD s.shoot_date
    location := match payload.location with | none => s.location | some v => v }

/-- Model of `app/routers/shoots.py` `update_shoot`: 404 when absent, otherwise apply
exactly the supplied fields. -/
def update_shoot (db : DB) (id : Nat) (payload : ShootUpdate) :
    Except ApiError (DB × Shoot) :=
  match findShoot db id with
  | none => .error .shootNotFound
  | some s =>
    let s2 := applyShootUpdate s payload
    .ok ({ db with shoots :=
            db.shoots.map (fun x => if x.shoot_id == id then s2 else x) }, s2)

/-- Model of `app/routers/shoots.py` `delete_shoot` with the `ondelete="SET NULL"`
policy on `Invoice.shoot_id`: invoices referencing the shoot keep existing
with a cleared shoot reference. -/
def delete_shoot (db : DB) (id : Nat) : Except ApiError DB :=
  match findShoot db id with
  | none => .error .shootNotFound
  | some _ =>
    .ok { db with
          shoots := db.shoots.filter (fun s => s.shoot_id ≠ id)
          invoices := db.invoices.map (fun i =>
            if i.shoot_id == some id then { i with shoot_id := none } else i) }

/-- Model of `app/schemas.py` `PackageCreate`. -/
structure PackageCreate where
  name : String
  description : Option String
  price : Int
  is_active : Bool
deriving DecidableEq, Repr

/-- Model of `app/schemas.py` `PackageUpdate` after `exclude_unset`. -/
structure PackageUpdate where
  name : Option String
  description : Option (Option String)
  price : Option Int
  is_active : Option Bool
deriving DecidableEq, Repr

/-- Model of `app/routers/packages.py` `create_package`: no application-level checks. -/
def create_package (db : DB) (payload : PackageCreate) :
    Except ApiError (DB × Package) :=
  let p : Package :=
    { package_id := maxPackageId db.packages + 1
      name := payload.name
      description := payload.description
      price := payload.price
      is_active := payload.is_active }
  .ok ({ db with packages := db.packages ++ [p] }, p)

/-- The record produced by `update_package`'s `setattr` loop. -/
def applyPackageUpdate (p : Package) (payload : PackageUpdate) : Package :=
  { package_id := p.package_id
    name := payload.name.getD p.name
    description := match payload.description with | none => p.description | some v => v
    price := payload.price.getD p.price
    is_active := payload.is_active.getD p.is_active }

/-- Model of `app/routers/packages.py` `update_package`. -/
def update_package (db : DB) (id : Nat) (payload : PackageUpdate) :
    Except ApiError (DB × Package) :=
  match findPackage db id with
  | none => .error .packageNotFound
  | some p =>
    let p2 := applyPackageUpdate p payload
    .ok ({ db with packages :=
            db.packages.map (fun x => if x.package_id == id then p2 else x) }, p2)

/-- Model of `app/routers/packages.py` `delete_package` with the `ondelete="SET NULL"`
policy on `Invoice.package_id`. -/
def delete_package (db : DB) (id : Nat) : Except ApiError DB :=
  match findPackage db id with
  | none => .error .packageNotFound
  | some _ =>
    .ok { db with
          packages := db.packages.filter (fun p => p.package_id ≠ id)
          invoices := db.invoices.map (fun i =>
            if i.package_id == some id then { i with package_id := none } else i) }

/-- Model of `app/schemas.py` `InvoiceCreate` (status defaults to "draft" at the
schema level). -/
structure InvoiceCreate where
  client_id : Nat
  amount : Int
  issued_date : Nat
  status : String
  due_date : Option Nat
  shoot_id : Option Nat
  package_id : Option Nat
deriving DecidableEq, Repr

/-- Model of `app/schemas.py` `InvoiceUpdate` after `exclude_unset`: outer `Option`
is field presence, inner `Option` the nullable column value. -/
structure InvoiceUpdate where
  amount : Option Int
  status : Option String
  issued_date : Option Nat
  due_date : Option (Option Nat)
  shoot_id : Option (Option Nat)
  package_id : Option (Option Nat)
deriving DecidableEq, Repr

/-- Model of `app/routers/invoices.py` `create_invoice`: the client must exist; a
supplied shoot or package reference must resolve. -/
def create_invoice (db : DB) (payload : InvoiceCreate) :
    Except ApiError (DB × Invoice) :=
  match findClient db payload.client_id with
  | none => .error .clientDoesNotExist
  | some _ =>
    if payload.shoot_id.any (fun sid => (findShoot db sid).isNone) then
      .error .shootDoesNotExist
    else if payload.package_id.any (fun pid => (findPackage db pid).isNone) then
      .error .packageDoesNotExist
    else
      let i : Invoice :=
        { invoice_id := maxInvoiceId db.invoices + 1
          client_id := payload.client_id
          shoot_id := payload.shoot_id
          package_id := payload.package_id
          amount := payload.amount
          status := payload.status
          issued_date := payload.issued_date
          due_date := payload.due_date }
      .ok ({ db with invoices := db.invoices ++ [i] }, i)

/-- The record produced by `update_invoice`'s `setattr` loop. -/
def applyInvoiceUpdate (i : Invoice) (payload : InvoiceUpdate) : Invoice :=
  { invoice_id := i.invoice_id
    client_id := i.client_id
    shoot_id := match payload.shoot_id with | none => i.shoot_id | some v => v
    package_id := match payload.package_id with | none => i.package_id | some v => v
    amount := payload.amount.getD i.amount
    status := payload.status.getD i.status
    issued_date := payload.issued_date.getD i.issued_date
    due_date := match payload.due_date with | none => i.due_date | some v => v }

/-- Model of `app/routers/invoices.py` `update_invoice`: 404 when absent; a supplied
non-null shoot or package reference must resolve; then apply exactly the
supplied fields.  Note: a supplied `amount` is not re-checked against the
invoice's existing payments. -/
def update_invoice (db : DB) (id : Nat) (payload : InvoiceUpdate) :
    Except ApiError (DB × Invoice) :=
  match findInvoice db id with
  | none => .error .invoiceNotFound
  | some i =>
    if (payload.shoot_id.getD none).any (fun sid => (findShoot db sid).isNone) then
      .error .shootDoesNotExist
    else if (payload.package_id.getD none).any (fun pid => (findPackage db pid).isNone) then
      .error .packageDoesNotExist
    else
      let i2 := applyInvoiceUpdate i payload
      .ok ({ db with invoices :=
              db.invoices.map (fun x => if x.invoice_id == id then i2 else x) }, i2)

/-- Model of `app/routers/invoices.py` `delete_invoice` with the payments cascade. -/
def delete_invoice (db : DB) (id : Nat) : Except ApiError DB :=
  match findInvoice db id with
  | none => .error .invoiceNotFound
  | some _ =>
    .ok { db with
          invoices := db.invoices.filter (fun i => i.invoice_id ≠ id)
          payments := db.payments.filter (fun p => p.invoice_id ≠ id) }

/-- Model of `ORDER BY client_id` (ascending) in `list_clients`. -/
def clientIdAsc (a b : Client) : Prop := a.client_id ≤ b.client_id

instance : DecidableRel clientIdAsc :=
  fun a b => inferInstanceAs (Decidable (a.client_id ≤ b.client_id))

/-- Model of `ORDER BY payment_id DESC` in `list_payments`. -/
def paymentIdDesc (a b : Payment) : Prop := b.payment_id ≤ a.payment_id

instance : DecidableRel paymentIdDesc :=
  fun a b => inferInstanceAs (Decidable (b.payment_id ≤ a.payment_id))

/-- Model of `ORDER BY package_id DESC` in `list_packages`. -/
def packageIdDesc (a b : Package) : Prop := b.package_id ≤ a.package_id

instance : DecidableRel packageIdDesc :=
  fun a b => inferInstanceAs (Decidable (b.package_id ≤ a.package_id))

/-- Model of `ORDER BY shoot_date DESC, shoot_id DESC` in `list_shoots`. -/
def shootDateDesc (a b : Shoot) : Prop :=
  b.shoot_date < a.shoot_date ∨ (a.shoot_date = b.shoot_date ∧ b.shoot_id ≤ a.shoot_id)

instance : DecidableRel shootDateDesc := fun a b =>
  inferInstanceAs (Decidable
    (b.shoot_date < a.shoot_date ∨ (a.shoot_date = b.shoot_date ∧ b.shoot_id ≤ a.shoot_id)))

/-- Model of `ORDER BY issued_date DESC, invoice_id DESC` in `list_invoices` and
`report_invoices`. -/
def invoiceDateDesc (a b : Invoice) : Prop :=
  b.issued_date < a.issued_date ∨ (a.issued_date = b.issued_date ∧ b.invoice_id ≤ a.invoice_id)

instance : DecidableRel invoiceDateDesc := fun a b =>
  inferInstanceAs (Decidable
    (b.issued_date < a.issued_date ∨ (a.issued_date = b.issued_date ∧ b.invoice_id ≤ a.invoice_id)))

/-- The payment ordering the specification documents: most-recent-first on
`paid_at`, ties broken by id descending. -/
def paymentPaidAtDesc (a b : Payment) : Prop :=
  b.paid_at < a.paid_at ∨ (a.paid_at = b.paid_at ∧ b.payment_id ≤ a.payment_id)

instance : DecidableRel paymentPaidAtDesc := fun a b =>
  inferInstanceAs (Decidable
    (b.paid_at < a.paid_at ∨ (a.paid_at = b.paid_at ∧ b.payment_id ≤ a.payment_id)))

/-- FastAPI `Query(0, ge=0)` / `Query(50, ge=1, le=200)` validation of the
pagination parameters; out-of-range requests are rejected before reaching
any query. -/
def checkPagination (skip limit : Int) : Except ApiError (Nat × Nat) :=
  if skip < 0 then .error .validationError
  else if limit < 1 then .error .validationError
  else if 200 < limit then .error .validationError
  else .ok (skip.toNat, limit.toNat)

/-- The documented pagination defaults. -/
def defaultSkip : Int := 0

/-- The documented page-size default. -/
def defaultLimit : Int := 50

/-- Model of `app/routers/clients.py` `list_clients` after validation. -/
def list_clients (db : DB) (skip limit : Nat) : List Client :=
  (((List.insertionSort clientIdAsc db.clients).drop skip).take limit)

/-- Model of `app/routers/shoots.py` `list_shoots` after validation. -/
def list_shoots (db : DB) (skip limit : Nat) : List Shoot :=
  (((List.insertionSort shootDateDesc db.shoots).drop skip).take limit)

/-- Model of `app/routers/packages.py` `list_packages` after validation. -/
def list_packages (db : DB) (skip limit : Nat) : List Package :=
  (((List.insertionSort packageIdDesc db.packages).drop skip).take limit)

/-- Model of `app/routers/payments.py` `list_payments` after validation: ordered by
`payment_id` descending. -/
def list_payments (db : DB) (skip limit : Nat) : List Payment :=
  (((List.insertionSort paymentIdDesc db.payments).drop skip).take limit)

/-- Model of `app/routers/invoices.py` `list_invoices` after validation: optional
inclusive `issued_date` range filters, then issued-date/id descending
order and the pagination window. -/
def list_invoices (db : DB) (skip limit : Nat) (date_from date_to : Option Nat) :
    List Invoice :=
  let q := db.invoices
  let q := match date_from with
           | none => q
           | some d => q.filter (fun i => d ≤ i.issued_date)
  let q := match date_to with
           | none => q
           | some d => q.filter (fun i => i.issued_date ≤ d)
  (((List.insertionSort invoiceDateDesc q).drop skip).take limit)

/-- Endpoint `list_clients` as invoked through the request layer. -/
def list_clients_endpoint (db : DB) (skip limit : Int) :
    Except ApiError (List Client) :=
  (checkPagination skip limit).map (fun sl => list_clients db sl.1 sl.2)

/-- Endpoint `list_shoots` as invoked through the request layer. -/
def list_shoots_endpoint (db : DB) (skip limit : Int) :
    Except ApiError (List Shoot) :=
  (checkPagination skip limit).map (fun sl => list_shoots db sl.1 sl.2)

/-- Endpoint `list_packages` as invoked through the request layer. -/
def list_packages_endpoint (db : DB) (skip limit : Int) :
    Except ApiError (List Package) :=
  (checkPagination skip limit).map (fun sl => list_packages db sl.1 sl.2)

/-- Endpoint `list_payments` as invoked through the request layer. -/
def list_payments_endpoint (db : DB) (skip limit : Int) :
    Except ApiError (List Payment) :=
  (checkPagination skip limit).map (fun sl => list_payments db sl.1 sl.2)

/-- Endpoint `list_invoices` as invoked through the request layer. -/
def list_invoices_endpoint (db : DB) (skip limit : Int)
    (date_from date_to : Option Nat) : Except ApiError (List Invoice) :=
  (checkPagination skip limit).map
    (fun sl => list_invoices db sl.1 sl.2 date_from date_to)

/-!
## The report

`app/routers/reports.py` builds, per invoice in the requested range, a SQL
row joining the client (inner join), the package (outer join) and the summed
payments, then constructs a `schemas.ReportInvoiceRow` from that row with
keyword arguments.  Pydantic v2 models ignore unknown keyword arguments and
reject construction when a required field is missing, so the keyword
construction is embedded explicitly.
-/

/-- A Python value passed as a keyword argument to a pydantic model. -/
inductive PyValue where
  | vNat (n : Nat)
  | vInt (i : Int)
  | vStr (s : String)
  | vNone
deriving DecidableEq, Repr

/-- Keyword-argument lookup. -/
def lookupKw (kwargs : List (String × PyValue)) (name : String) : Option PyValue :=
  (kwargs.find? (fun kv => kv.1 == name)).map (fun kv => kv.2)

/-- Pydantic validation of a required `str` field. -/
def kwStr (kwargs : List (String × PyValue)) (name : String) :
    Except String String :=
  match lookupKw kwargs name with
  | some (.vStr s) => .ok s
  | some _ => .error ("type error: " ++ name)
  | none => .error ("field required: " ++ name)

/-- Pydantic validation of an `Optional[str] = None` field. -/
def kwOptStr (kwargs : List (String × PyValue)) (name : String) :
    Except String (Option String) :=
  match lookupKw kwargs name with
  | some (.vStr s) => .ok (some s)
  | some .vNone => .ok none
  | some _ => .error ("type error: " ++ name)
  | none => .ok none

/-- Pydantic validation of a required `Decimal` field (cents). -/
def kwInt (kwargs : List (String × PyValue)) (name : String) :
    Except String Int :=
  match lookupKw kwargs name with
  | some (.vInt i) => .ok i
  | some _ => .error ("type error: " ++ name)
  | none => .error ("field required: " ++ name)

/-- Pydantic validation of a required `int` or `date` field. -/
def kwNat (kwargs : List (String × PyValue)) (name : String) :
    Except String Nat :=
  match lookupKw kwargs name with
  | some (.vNat n) => .ok n
  | some _ => .error ("type error: " ++ name)
  | none => .error ("field required: " ++ name)

/-- Model of `app/schemas.py` `ReportInvoiceRow`: the response row schema for
`/reports/invoices`, in its declared field order. -/
structure ReportInvoiceRow where
  client_name : String
  package_name : Option String
  invoice_amount : Int
  total_paid : Int
  balance : Int
  shoot_location : Option String
  payment_status : String
  invoice_id : Nat
  issued_date : Nat
deriving DecidableEq, Repr

/-- Construction of a `ReportInvoiceRow` from keyword arguments, following
pydantic v2 semantics: required fields must be present (validated in field
declaration order), optional fields default, extra keywords are ignored. -/
def mkReportInvoiceRow (kwargs : List (String × PyValue)) :
    Except String ReportInvoiceRow := do
  let client_name ← kwStr kwargs "client_name"
  let package_name ← kwOptStr kwargs "package_name"
  let invoice_amount ← kwInt kwargs "invoice_amount"
  let total_paid ← kwInt kwargs "total_paid"
  let balance ← kwInt kwargs "balance"
  let shoot_location ← kwOptStr kwargs "shoot_location"
  let payment_status ← kwStr kwargs "payment_status"
  let invoice_id ← kwNat kwargs "invoice_id"
  let issued_date ← kwNat kwargs "issued_date"
  .ok { client_name := client_name
        package_name := package_name
        invoice_amount := invoice_amount
        total_paid := total_paid
        balance := balance
        shoot_location := shoot_location
        payment_status := payment_status
        invoice_id := invoice_id
        issued_date := issued_date }

/-- The SQL row produced by the report query for one invoice: the joined
client name, the optional package name, the invoice columns, and the
coalesced payment sum grouped per invoice. -/
structure ReportSqlRow where
  invoice_id : Nat
  issued_date : Nat
  due_date : Option Nat
  client_name : String
  package_name : Option String
  amount : Int
  total_paid : Int
deriving DecidableEq, Repr

/-- The rows of the report query: invoices filtered to the inclusive
issued-date range, inner-joined to their client (rows without a resolvable
client are dropped by the inner join), outer-joined to their package, with
payment sums grouped per invoice, ordered issued-date/id descending. -/
def reportSqlRows (db : DB) (date_from date_to : Option Nat) :
    List ReportSqlRow :=
  let q := db.invoices
  let q := match date_from with
           | none => q
           | some d => q.filter (fun i => d ≤ i.issued_date)
  let q := match date_to with
           | none => q
           | some d => q.filter (fun i => i.issued_date ≤ d)
  (List.insertionSort invoiceDateDesc q).filterMap (fun i =>
    match findClient db i.client_id with
    | none => none
    | some c =>
      some { invoice_id := i.invoice_id
             issued_date := i.issued_date
             due_date := i.due_date
             client_name := c.name
             package_name := (i.package_id.bind (findPackage db)).map Package.name
             amount := i.amount
             total_paid := sumPayments db i.invoice_id })

/-- The optional package name as the keyword argument Python passes. -/
def pyOptStr : Option String → PyValue
  | none => .vNone
  | some s => .vStr s

/-- The optional due date as the keyword argument Python passes. -/
def pyOptNat : Option Nat → PyValue
  | none => .vNone
  | some n => .vNat n

/-- Model of `app/routers/reports.py` `report_invoices`: run the report query, then
for each row derive balance and status and construct a
`schemas.ReportInvoiceRow` with the keyword arguments written in the source
(`invoice_id`, `issued_date`, `due_date`, `client_name`, `package_name`,
`amount`, `total_paid`, `balance`, `status`).  A row that fails pydantic
validation aborts the request. -/
def report_invoices (db : DB) (date_from date_to : Option Nat) :
    Except String (List ReportInvoiceRow) :=
  (reportSqlRows db date_from date_to).mapM (fun r =>
    let total_paid := r.total_paid
    let amount := r.amount
    let balance := amount - total_paid
    let status :=
      if balance = 0 then "paid"
      else if 0 < total_paid ∧ total_paid < amount then "partial"
      else "unpaid"
    mkReportInvoiceRow
      [("invoice_id", .vNat r.invoice_id),
       ("issued_date", .vNat r.issued_date),
       ("due_date", pyOptNat r.due_date),
       ("client_name", .vStr r.client_name),
       ("package_name", pyOptStr r.package_name),
       ("amount", .vInt amount),
       ("total_paid", .vInt total_paid),
       ("balance", .vInt balance),
       ("status", .vStr status)])

/-!
## Operation sequences

A single inductive of all mutating API requests, used to state invariants
over arbitrary interleavings of operations.
-/

/-- One mutating API request. -/
inductive Op where
  | opCreateClient (p : ClientCreate)
  | opUpdateClient (id : Nat) (p : ClientUpdate)
  | opDeleteClient (id : Nat)
  | opCreateShoot (p : ShootCreate)
  | opUpdateShoot (id : Nat) (p : ShootUpdate)
  | opDeleteShoot (id : Nat)
  | opCreatePackage (p : PackageCreate)
  | opUpdatePackage (id : Nat) (p : PackageUpdate)
  | opDeletePackage (id : Nat)
  | opCreateInvoice (p : InvoiceCreate)
  | opUpdateInvoice (id : Nat) (p : InvoiceUpdate)
  | opDeleteInvoice (id : Nat)
  | opCreatePayment (now : Nat) (p : PaymentCreate)
  | opDeletePayment (id : Nat)
deriving DecidableEq, Repr

/-- The committed store of a request outcome: the new store on success, the
unchanged store on failure (`§7`: either the full operation commits or
nothing is persisted). -/
def commit (db : DB) : Except ApiError DB → DB
  | .ok db2 => db2
  | .error _ => db

/-- Run one request against the store. -/
def step (db : DB) : Op → DB
  | .opCreateClient p => commit db ((create_client db p).map Prod.fst)
  | .opUpdateClient id p => commit db ((update_client db id p).map Prod.fst)
  | .opDeleteClient id => commit db (delete_client db id)
  | .opCreateShoot p => commit db ((create_shoot db p).map Prod.fst)
  | .opUpdateShoot id p => commit db ((update_shoot db id p).map Prod.fst)
  | .opDeleteShoot id => commit db (delete_shoot db id)
  | .opCreatePackage p => commit db ((create_package db p).map Prod.fst)
  | .opUpdatePackage id p => commit db ((update_package db id p).map Prod.fst)
  | .opDeletePackage id => commit db (delete_package db id)
  | .opCreateInvoice p => commit db ((create_invoice db p).map Prod.fst)
  | .opUpdateInvoice id p => commit db ((update_invoice db id p).map Prod.fst)
  | .opDeleteInvoice id => commit db (delete_invoice db id)
  | .opCreatePayment now p => commit db ((create_payment db now p).map Prod.fst)
  | .opDeletePayment id => commit db (delete_payment db id)

/-- Run a sequence of requests. -/
def applyOps (db : DB) (ops : List Op) : DB :=
  ops.foldl step db

/-- Store-level well-formedness maintained by the API: invoice ids are
unique (primary key), recorded payment amounts are strictly positive, and
every payment references an existing invoice (foreign key). -/
def WFdb (db : DB) : Prop :=
  (db.invoices.map Invoice.invoice_id).Nodup ∧
  (∀ p ∈ db.payments, 0 < p.amount) ∧
  (∀ p ∈ db.payments, ∃ i ∈ db.invoices, i.invoice_id = p.invoice_id)

instance (db : DB) : Decidable (WFdb db) :=
  inferInstanceAs (Decidable (_ ∧ _ ∧ _))

/-- The overpayment invariant: no invoice's payment total exceeds its
amount. -/
def PaymentsWithin (db : DB) : Prop :=
  ∀ inv ∈ db.invoices, sumPayments db inv.invoice_id ≤ inv.amount

instance (db : DB) : Decidable (PaymentsWithin db) :=
  inferInstanceAs (Decidable (∀ inv ∈ db.invoices, _))

/-- Side condition under which an operation cannot break the overpayment
invariant: invoices are created with a non-negative amount, and an invoice
amount update does not go below the invoice's current paid total.  All
other operations are unconstrained. -/
def goodOp (db : DB) : Op → Bool
  | .opCreateInvoice p => decide (0 ≤ p.amount)
  | .opUpdateInvoice id p =>
    match p.amount with
    | none => true
    | some a => decide (sumPayments db id ≤ a)
  | _ => true

/-- Every operation of the trace satisfies `goodOp` in the state where it
runs. -/
def goodTrace : DB → List Op → Bool
  | _, [] => true
  | db, op :: ops => goodOp db op && goodTrace (step db op) ops

/-!
## Concrete fixtures

Small concrete stores used to instantiate the theorems.
-/

/-- A sample client. -/
def exClient1 : Client :=
  { client_id := 1, name := "Ada", email := "ada@example.com", phone := none }

/-- A second sample client with a distinct email. -/
def exClient2 : Client :=
  { client_id := 2, name := "Grace", email := "grace@example.com", phone := some "555" }

/-- A sample invoice for 100.00 issued on day 100. -/
def exInvoice1 : Invoice :=
  { invoice_id := 1, client_id := 1, shoot_id := none, package_id := none
    amount := 10000, status := "draft", issued_date := 100, due_date := none }

/-- A zero-amount invoice. -/
def exInvoiceZero : Invoice :=
  { invoice_id := 1, client_id := 1, shoot_id := none, package_id := none
    amount := 0, status := "draft", issued_date := 100, due_date := none }

/-- A sample payment of 60.00 against invoice 1. -/
def exPayment1 : Payment :=
  { payment_id := 1, invoice_id := 1, amount := 6000, method := some "card", paid_at := 50 }

/-- A store with one client, one invoice of 100.00 and one payment of 60.00. -/
def exDB1 : DB :=
  { clients := [exClient1], shoots := [], packages := []
    invoices := [exInvoice1], payments := [exPayment1] }

/-- A store whose only invoice has amount zero and no payments. -/
def exDBZero : DB :=
  { clients := [exClient1], shoots := [], packages := []
    invoices := [exInvoiceZero], payments := [] }

/-- The record `exClient1` after an email-only partial update. -/
def exClient1Upd : Client :=
  { client_id := 1, name := "Ada", email := "new@example.com", phone := none }

/-- The store `exDB1` after the email-only partial update of client 1. -/
def exDB1Upd : DB :=
  { clients := [exClient1Upd], shoots := [], packages := []
    invoices := [exInvoice1], payments := [exPayment1] }

/-- A store with two clients. -/
def exDBTwoClients : DB :=
  { clients := [exClient1, exClient2], shoots := [], packages := []
    invoices := [], payments := [] }

/-- A second invoice, owned by client 2. -/
def exInvoice2 : Invoice :=
  { invoice_id := 2, client_id := 2, shoot_id := none, package_id := none
    amount := 20000, status := "sent", issued_date := 120, due_date := some 150 }

/-- A shoot for client 1. -/
def exShoot1 : Shoot :=
  { shoot_id := 1, client_id := 1, shoot_date := 90, location := some "studio" }

/-- A shoot for client 2. -/
def exShoot2 : Shoot :=
  { shoot_id := 2, client_id := 2, shoot_date := 95, location := none }

/-- A payment against invoice 2. -/
def exPayment2 : Payment :=
  { payment_id := 2, invoice_id := 2, amount := 5000, method := none, paid_at := 130 }

/-- A store with two clients, each owning a shoot, an invoice and a payment. -/
def exDBCascade : DB :=
  { clients := [exClient1, exClient2], shoots := [exShoot1, exShoot2], packages := []
    invoices := [exInvoice1, exInvoice2], payments := [exPayment1, exPayment2] }

/-- A payment with the lower id but the more recent timestamp. -/
def exPayNew : Payment :=
  { payment_id := 1, invoice_id := 1, amount := 100, method := none, paid_at := 20 }

/-- A payment with the higher id but the older timestamp. -/
def exPayOld : Payment :=
  { payment_id := 2, invoice_id := 1, amount := 100, method := none, paid_at := 10 }

/-- A store whose two payments have opposite id and timestamp orders. -/
def exDBPayOrder : DB :=
  { clients := [exClient1], shoots := [], packages := []
    invoices := [exInvoice1], payments := [exPayNew, exPayOld] }

/-- A payment covering invoice 1 in full. -/
def exPaymentFull : Payment :=
  { payment_id := 1, invoice_id := 1, amount := 10000, method := none, paid_at := 50 }

/-- A store whose invoice 1 (amount 100.00) is fully paid. -/
def exDBPaid : DB :=
  { clients := [exClient1], shoots := [], packages := []
    invoices := [exInvoice1], payments := [exPaymentFull] }

/-- An invoice update that halves the amount and touches nothing else. -/
def exUpdHalve : InvoiceUpdate :=
  { amount := some 5000, status := none, issued_date := none
    due_date := none, shoot_id := none, package_id := none }

/-- The empty store. -/
def exDBEmpty : DB :=
  { clients := [], shoots := [], packages := [], invoices := [], payments := [] }

/-- A sample operation sequence: create a client, an invoice, a payment,
delete the payment, then lower the invoice amount (still above the paid
total). -/
def exOpsTrace : List Op :=
  [ .opCreateClient { name := "Ada", email := "ada@example.com", phone := none },
    .opCreateInvoice { client_id := 1, amount := 10000, issued_date := 100
                       status := "draft", due_date := none, shoot_id := none
                       package_id := none },
    .opCreatePayment 5 { invoice_id := 1, amount := 6000, method := none
                         paid_at := none },
    .opDeletePayment 1,
    .opUpdateInvoice 1 { amount := some 7000, status := none
                         issued_date := none, due_date := none
                         shoot_id := none, package_id := none } ]

/-- An invoice of client 2 referencing client 1's shoot (reachable:
invoice creation only checks that the shoot exists, not who owns it). -/
def exInvoiceCross : Invoice :=
  { invoice_id := 2, client_id := 2, shoot_id := some 1, package_id := none
    amount := 20000, status := "sent", issued_date := 120, due_date := none }

/-- A store where client 2's invoice references client 1's shoot. -/
def exDBCross : DB :=
  { clients := [exClient1, exClient2], shoots := [exShoot1], packages := []
    invoices := [exInvoiceCross], payments := [] }

/-!
## Theorems
-/

theorem sumFor_append (ps qs : List Payment) (iid : Nat) :
    sumFor (ps ++ qs) iid = sumFor ps iid + sumFor qs iid := by
  simp [sumFor, List.filter_append]

theorem sumFor_singleton (p : Payment) (iid : Nat) :
    sumFor [p] iid = if p.invoice_id = iid then p.amount else 0 := by
  by_cases h : p.invoice_id = iid <;> simp [sumFor, List.filter_cons, h]

theorem findInvoice_id_eq {db : DB} {iid : Nat} {inv : Invoice}
    (h : findInvoice db iid = some inv) : inv.invoice_id = iid := by
  simpa using List.find?_some h

theorem findInvoice_mem {db : DB} {iid : Nat} {inv : Invoice}
    (h : findInvoice db iid = some inv) : inv ∈ db.invoices :=
  List.mem_of_find?_eq_some h

/-- C1: payment creation follows the acceptance rule exactly: a non-positive
amount fails with `InvalidAmount` regardless of invoice state; otherwise a
missing invoice fails with `InvoiceNotFound`; otherwise, with `A` the invoice
amount and `P` the exact sum of its existing payments, `P + p > A` fails with
`OverpaymentError`; otherwise the payment is persisted and the paid total
becomes `P + p` (equality accepted). -/
theorem payment_acceptance_rule (db : DB) (now : Nat) (payload : PaymentCreate) :
    (payload.amount ≤ 0 → create_payment db now payload = .error .invalidAmount) ∧
    (0 < payload.amount → findInvoice db payload.invoice_id = none →
      create_payment db now payload = .error .invoiceNotFound) ∧
    (∀ inv, 0 < payload.amount → findInvoice db payload.invoice_id = some inv →
      inv.amount < sumPayments db payload.invoice_id + payload.amount →
      create_payment db now payload = .error .overpaymentError) ∧
    (∀ inv, 0 < payload.amount → findInvoice db payload.invoice_id = some inv →
      sumPayments db payload.invoice_id + payload.amount ≤ inv.amount →
      ∃ db2 pay, create_payment db now payload = .ok (db2, pay) ∧
        sumPayments db2 payload.invoice_id =
          sumPayments db payload.invoice_id + payload.amount) := by
  refine ⟨fun h => by simp [create_payment, h], fun h hfind => ?_, ?_, ?_⟩
  · simp [create_payment, not_le.mpr h, hfind]
  · intro inv h hfind hover
    have hid : inv.invoice_id = payload.invoice_id := findInvoice_id_eq hfind
    simp [create_payment, not_le.mpr h, hfind, hid, hover]
  · intro inv h hfind hle
    have hid : inv.invoice_id = payload.invoice_id := findInvoice_id_eq hfind
    have hnot : ¬ (inv.amount < sumPayments db inv.invoice_id + payload.amount) := by
      rw [hid]; exact not_lt.mpr hle
    have hres : create_payment db now payload =
        .ok ({ db with payments := db.payments ++
                [{ payment_id := maxPaymentId db.payments + 1
                   invoice_id := payload.invoice_id
                   amount := payload.amount
                   method := payload.method
                   paid_at := payload.paid_at.getD now }] },
             { payment_id := maxPaymentId db.payments + 1
               invoice_id := payload.invoice_id
               amount := payload.amount
               method := payload.method
               paid_at := payload.paid_at.getD now }) := by
      simp [create_payment, not_le.mpr h, hfind, hnot]
    refine ⟨_, _, hres, ?_⟩
    show sumFor (db.payments ++ [_]) payload.invoice_id = _
    rw [sumFor_append, sumFor_singleton]
    simp [sumPayments]

/-- C1 witness: all four branches realized on `exDB1`. -/
theorem payment_acceptance_rule_witness :
    create_payment exDB1 7 { invoice_id := 1, amount := 0, method := none, paid_at := none }
      = .error .invalidAmount ∧
    create_payment exDB1 7 { invoice_id := 2, amount := 100, method := none, paid_at := none }
      = .error .invoiceNotFound ∧
    create_payment exDB1 7 { invoice_id := 1, amount := 5000, method := none, paid_at := none }
      = .error .overpaymentError ∧
    (∃ db2 pay,
      create_payment exDB1 7 { invoice_id := 1, amount := 4000, method := none, paid_at := none }
        = .ok (db2, pay) ∧
      sumPayments db2 1 = sumPayments exDB1 1 + 4000) := by
  refine ⟨?_, ?_, ?_, ?_⟩
  · exact (payment_acceptance_rule exDB1 7 _).1 (by decide)
  · exact (payment_acceptance_rule exDB1 7 _).2.1 (by decide) rfl
  · exact (payment_acceptance_rule exDB1 7 _).2.2.1 exInvoice1 (by decide) rfl (by decide)
  · exact (payment_acceptance_rule exDB1 7 _).2.2.2 exInvoice1 (by decide) rfl (by decide)

/-- C3: for an existing invoice with amount `A` and payments summing to `P`,
the summary returns `total_paid = P`, `balance = A - P`, and status "paid"
when the balance is zero, "partial" when `0 < P < A`, "unpaid" otherwise; a
zero-amount invoice with no payments is "paid". -/
theorem summary_balance_status (db : DB) (iid : Nat) (inv : Invoice)
    (h : findInvoice db iid = some inv) :
    ∃ s, get_invoice_summary db iid = .ok s ∧
      s.invoice_id = inv.invoice_id ∧
      s.amount = inv.amount ∧
      s.total_paid = sumPayments db iid ∧
      s.balance = inv.amount - sumPayments db iid ∧
      (s.balance = 0 → s.status = "paid") ∧
      (0 < s.total_paid ∧ s.total_paid < s.amount → s.status = "partial") ∧
      (s.balance ≠ 0 ∧ ¬(0 < s.total_paid ∧ s.total_paid < s.amount) →
        s.status = "unpaid") := by
  have hid : inv.invoice_id = iid := findInvoice_id_eq h
  subst hid
  refine ⟨{ invoice_id := inv.invoice_id
            amount := inv.amount
            total_paid := sumPayments db inv.invoice_id
            balance := inv.amount - sumPayments db inv.invoice_id
            status :=
              if inv.amount - sumPayments db inv.invoice_id = 0 then "paid"
              else if 0 < sumPayments db inv.invoice_id ∧
                      sumPayments db inv.invoice_id < inv.amount then "partial"
              else "unpaid" },
        by simp [get_invoice_summary, h], rfl, rfl, rfl, rfl, ?_, ?_, ?_⟩
  · intro hb
    dsimp only at hb ⊢
    rw [if_pos hb]
  · intro hp
    dsimp only at hp ⊢
    have hb : inv.amount - sumPayments db inv.invoice_id ≠ 0 := by
      rcases hp with ⟨h1, h2⟩
      intro h0
      rw [sub_eq_zero] at h0
      exact absurd h2 (by rw [h0]; exact lt_irrefl _)
    rw [if_neg hb, if_pos hp]
  · rintro ⟨hb, hp⟩
    dsimp only at hb hp ⊢
    rw [if_neg hb, if_neg hp]

/-- Success shape of `update_client`. -/
theorem update_client_ok {db : DB} {id : Nat} {payload : ClientUpdate}
    {db2 : DB} {r : Client} (h : update_client db id payload = .ok (db2, r)) :
    ∃ c, findClient db id = some c ∧ r = applyClientUpdate c payload ∧
      db2 = { db with
        clients := db.clients.map (fun x => if x.client_id == id then r else x) } := by
  rcases hfind : findClient db id with _ | c
  · simp [update_client, hfind] at h
  · refine ⟨c, rfl, ?_⟩
    rcases hpe : payload.email with _ | e
    · simp [update_client, hfind, hpe] at h
      rcases h with ⟨hdb, hr⟩
      subst hr
      refine ⟨rfl, ?_⟩
      rw [← hdb]
      simp
    · rcases hc : db.clients.find? (fun c2 => c2.email == e && c2.client_id != id)
        with _ | c3
      · simp [update_client, hfind, hpe, hc] at h
        rcases h with ⟨hdb, hr⟩
        subst hr
        refine ⟨rfl, ?_⟩
        rw [← hdb]
        simp
      · simp [update_client, hfind, hpe, hc] at h

/-- Success shape of `update_shoot`. -/
theorem update_shoot_ok {db : DB} {id : Nat} {payload : ShootUpdate}
    {db2 : DB} {r : Shoot} (h : update_shoot db id payload = .ok (db2, r)) :
    ∃ s, findShoot db id = some s ∧ r = applyShootUpdate s payload ∧
      db2 = { db with
        shoots := db.shoots.map (fun x => if x.shoot_id == id then r else x) } := by
  rcases hfind : findShoot db id with _ | s
  · simp [update_shoot, hfind] at h
  · refine ⟨s, rfl, ?_⟩
    simp [update_shoot, hfind] at h
    rcases h with ⟨hdb, hr⟩
    subst hr
    refine ⟨rfl, ?_⟩
    rw [← hdb]
    simp

/-- Success shape of `update_package`. -/
theorem update_package_ok {db : DB} {id : Nat} {payload : PackageUpdate}
    {db2 : DB} {r : Package} (h : update_package db id payload = .ok (db2, r)) :
    ∃ p, findPackage db id = some p ∧ r = applyPackageUpdate p payload ∧
      db2 = { db with
        packages := db.packages.map (fun x => if x.package_id == id then r else x) } := by
  rcases hfind : findPackage db id with _ | p
  · simp [update_package, hfind] at h
  · refine ⟨p, rfl, ?_⟩
    simp [update_package, hfind] at h
    rcases h with ⟨hdb, hr⟩
    subst hr
    refine ⟨rfl, ?_⟩
    rw [← hdb]
    simp

/-- Success shape of `update_invoice`. -/
theorem update_invoice_ok {db : DB} {id : Nat} {payload : InvoiceUpdate}
    {db2 : DB} {r : Invoice} (h : update_invoice db id payload = .ok (db2, r)) :
    ∃ i, findInvoice db id = some i ∧ r = applyInvoiceUpdate i payload ∧
      db2 = { db with
        invoices := db.invoices.map (fun x => if x.invoice_id == id then r else x) } := by
  rcases hfind : findInvoice db id with _ | i
  · simp [update_invoice, hfind] at h
  · refine ⟨i, rfl, ?_⟩
    by_cases h1 : (payload.shoot_id.getD none).any (fun sid => (findShoot db sid).isNone)
    · simp [update_invoice, hfind, h1] at h
    · by_cases h2 : (payload.package_id.getD none).any (fun pid => (findPackage db pid).isNone)
      · simp [update_invoice, hfind, h1, h2] at h
      · simp [update_invoice, hfind, h1, h2] at h
        rcases h with ⟨hdb, hr⟩
        subst hr
        refine ⟨rfl, ?_⟩
        rw [← hdb]
        simp

/-- C10: accepting a payment never modifies the invoice row (nor any client,
shoot or package row): only the payments table grows, so the stored
free-text invoice status keeps its prior value after any number of accepted
payments, and the derived paid/partial/unpaid status exists only in the
summary/report outputs. -/
theorem create_payment_frame :
    (∀ (db : DB) (now : Nat) (p : PaymentCreate) (db2 : DB) (pay : Payment),
      create_payment db now p = .ok (db2, pay) →
        db2.invoices = db.invoices ∧ db2.clients = db.clients ∧
        db2.shoots = db.shoots ∧ db2.packages = db.packages ∧
        db2.payments = db.payments ++ [pay]) ∧
    (∀ (db : DB) (reqs : List (Nat × PaymentCreate)),
      (applyOps db (reqs.map (fun q => Op.opCreatePayment q.1 q.2))).invoices
        = db.invoices) := by
  have single : ∀ (db : DB) (now : Nat) (p : PaymentCreate) (db2 : DB) (pay : Payment),
      create_payment db now p = .ok (db2, pay) →
        db2.invoices = db.invoices ∧ db2.clients = db.clients ∧
        db2.shoots = db.shoots ∧ db2.packages = db.packages ∧
        db2.payments = db.payments ++ [pay] := by
    intro db now p db2 pay h
    by_cases h1 : p.amount ≤ 0
    · simp [create_payment, h1] at h
    · rcases hfind : findInvoice db p.invoice_id with _ | inv
      · simp [create_payment, h1, hfind] at h
      · by_cases h2 : inv.amount < sumPayments db inv.invoice_id + p.amount
        · simp [create_payment, h1, hfind, h2] at h
        · simp [create_payment, h1, hfind, h2] at h
          rcases h with ⟨hdb, hpay⟩
          subst hdb
          simp [hpay]
  refine ⟨single, ?_⟩
  intro db reqs
  induction reqs generalizing db with
  | nil => rfl
  | cons q qs ih =>
    have hstep : (step db (Op.opCreatePayment q.1 q.2)).invoices = db.invoices := by
      rcases hq : create_payment db q.1 q.2 with e | pr
      · simp [step, commit, hq, Except.map]
      · have := single db q.1 q.2 pr.1 pr.2 (by rw [hq])
        simp [step, commit, hq, Except.map, this.1]
    simp only [List.map_cons, applyOps, List.foldl_cons]
    rw [show List.foldl step (step db (Op.opCreatePayment q.1 q.2))
          (List.map (fun q => Op.opCreatePayment q.1 q.2) qs)
        = applyOps (step db (Op.opCreatePayment q.1 q.2))
            (List.map (fun q => Op.opCreatePayment q.1 q.2) qs) from rfl]
    rw [ih, hstep]

/-- C10 witness: one accepted payment on `exDB1` leaves every invoice row,
including its stored "draft" status, unchanged. -/
theorem create_payment_frame_witness :
    (applyOps exDB1
        [Op.opCreatePayment 7
          { invoice_id := 1, amount := 4000, method := none, paid_at := none }]).invoices
      = exDB1.invoices :=
  create_payment_frame.2 exDB1
    [(7, { invoice_id := 1, amount := 4000, method := none, paid_at := none })]

/-- C3 witness: the partial case on `exDB1` (A = 100.00, P = 60.00) and the
zero-amount edge case (A = 0, P = 0 is "paid"). -/
theorem summary_balance_status_witness :
    (∃ s, get_invoice_summary exDB1 1 = .ok s ∧
       s.total_paid = 6000 ∧ s.balance = 4000 ∧ s.status = "partial") ∧
    (∃ s, get_invoice_summary exDBZero 1 = .ok s ∧
       s.balance = 0 ∧ s.status = "paid") := by
  constructor
  · obtain ⟨s, hs, _, hsam, hpd, hbal, _, hpart, _⟩ :=
      summary_balance_status exDB1 1 exInvoice1 rfl
    refine ⟨s, hs, ?_, ?_, ?_⟩
    · rw [hpd]; decide
    · rw [hbal]; decide
    · exact hpart ⟨by rw [hpd]; decide, by rw [hpd, hsam]; decide⟩
  · obtain ⟨s, hs, _, _, _, hbal, hpaid, _, _⟩ :=
      summary_balance_status exDBZero 1 exInvoiceZero rfl
    have hb : s.balance = 0 := by rw [hbal]; decide
    exact ⟨s, hs, hb, hpaid hb⟩

/-- C8: every update endpoint is partial: only fields present in the payload
are applied; each absent field keeps its prior value on the updated record,
which is the record stored in the new state. -/
theorem partial_update_frame :
    (∀ (db : DB) (id : Nat) (payload : ClientUpdate) (db2 : DB) (r c : Client),
      update_client db id payload = .ok (db2, r) → findClient db id = some c →
        r.client_id = c.client_id ∧
        (payload.name = none → r.name = c.name) ∧
        (payload.email = none → r.email = c.email) ∧
        (payload.phone = none → r.phone = c.phone) ∧
        r ∈ db2.clients) ∧
    (∀ (db : DB) (id : Nat) (payload : ShootUpdate) (db2 : DB) (r s : Shoot),
      update_shoot db id payload = .ok (db2, r) → findShoot db id = some s →
        r.shoot_id = s.shoot_id ∧ r.client_id = s.client_id ∧
        (payload.shoot_date = none → r.shoot_date = s.shoot_date) ∧
        (payload.location = none → r.location = s.location) ∧
        r ∈ db2.shoots) ∧
    (∀ (db : DB) (id : Nat) (payload : PackageUpdate) (db2 : DB) (r p : Package),
      update_package db id payload = .ok (db2, r) → findPackage db id = some p →
        r.package_id = p.package_id ∧
        (payload.name = none → r.name = p.name) ∧
        (payload.description = none → r.description = p.description) ∧
        (payload.price = none → r.price = p.price) ∧
        (payload.is_active = none → r.is_active = p.is_active) ∧
        r ∈ db2.packages) ∧
    (∀ (db : DB) (id : Nat) (payload : InvoiceUpdate) (db2 : DB) (r i : Invoice),
      update_invoice db id payload = .ok (db2, r) → findInvoice db id = some i →
        r.invoice_id = i.invoice_id ∧ r.client_id = i.client_id ∧
        (payload.amount = none → r.amount = i.amount) ∧
        (payload.status = none → r.status = i.status) ∧
        (payload.issued_date = none → r.issued_date = i.issued_date) ∧
        (payload.due_date = none → r.due_date = i.due_date) ∧
        (payload.shoot_id = none → r.shoot_id = i.shoot_id) ∧
        (payload.package_id = none → r.package_id = i.package_id) ∧
        r ∈ db2.invoices) := by
  refine ⟨?_, ?_, ?_, ?_⟩
  · intro db id payload db2 r c h hfind
    obtain ⟨c0, hfind0, hr, hdb⟩ := update_client_ok h
    rw [hfind] at hfind0
    cases Option.some.inj hfind0
    have hpred : (c.client_id == id) = true := by
      have h2 := List.find?_some
        (show db.clients.find? (fun c2 => c2.client_id == id) = some c from hfind)
      simpa using h2
    subst hr
    subst hdb
    refine ⟨rfl, fun hn => by simp [applyClientUpdate, hn],
      fun hn => by simp [applyClientUpdate, hn],
      fun hn => by simp [applyClientUpdate, hn], ?_⟩
    exact List.mem_map.mpr
      ⟨c, List.mem_of_find?_eq_some hfind, by rw [if_pos hpred]⟩
  · intro db id payload db2 r s h hfind
    obtain ⟨s0, hfind0, hr, hdb⟩ := update_shoot_ok h
    rw [hfind] at hfind0
    cases Option.some.inj hfind0
    have hpred : (s.shoot_id == id) = true := by
      have h2 := List.find?_some
        (show db.shoots.find? (fun s2 => s2.shoot_id == id) = some s from hfind)
      simpa using h2
    subst hr
    subst hdb
    refine ⟨rfl, rfl, fun hn => by simp [applyShootUpdate, hn],
      fun hn => by simp [applyShootUpdate, hn], ?_⟩
    exact List.mem_map.mpr
      ⟨s, List.mem_of_find?_eq_some hfind, by rw [if_pos hpred]⟩
  · intro db id payload db2 r p h hfind
    obtain ⟨p0, hfind0, hr, hdb⟩ := update_package_ok h
    rw [hfind] at hfind0
    cases Option.some.inj hfind0
    have hpred : (p.package_id == id) = true := by
      have h2 := List.find?_some
        (show db.packages.find? (fun p2 => p2.package_id == id) = some p from hfind)
      simpa using h2
    subst hr
    subst hdb
    refine ⟨rfl, fun hn => by simp [applyPackageUpdate, hn],
      fun hn => by simp [applyPackageUpdate, hn],
      fun hn => by simp [applyPackageUpdate, hn],
      fun hn => by simp [applyPackageUpdate, hn], ?_⟩
    exact List.mem_map.mpr
      ⟨p, List.mem_of_find?_eq_some hfind, by rw [if_pos hpred]⟩
  · intro db id payload db2 r i h hfind
    obtain ⟨i0, hfind0, hr, hdb⟩ := update_invoice_ok h
    rw [hfind] at hfind0
    cases Option.some.inj hfind0
    have hpred : (i.invoice_id == id) = true := by
      have h2 := List.find?_some
        (show db.invoices.find? (fun i2 => i2.invoice_id == id) = some i from hfind)
      simpa using h2
    subst hr
    subst hdb
    refine ⟨rfl, rfl, fun hn => by simp [applyInvoiceUpdate, hn],
      fun hn => by simp [applyInvoiceUpdate, hn],
      fun hn => by simp [applyInvoiceUpdate, hn],
      fun hn => by simp [applyInvoiceUpdate, hn],
      fun hn => by simp [applyInvoiceUpdate, hn],
      fun hn => by simp [applyInvoiceUpdate, hn], ?_⟩
    exact List.mem_map.mpr
      ⟨i, List.mem_of_find?_eq_some hfind, by rw [if_pos hpred]⟩

/-- C8 witness: an email-only update of client 1 leaves name and phone at
their prior values. -/
theorem partial_update_frame_witness :
    exClient1Upd.client_id = exClient1.client_id ∧
    exClient1Upd.name = exClient1.name ∧
    exClient1Upd.phone = exClient1.phone ∧
    exClient1Upd ∈ exDB1Upd.clients := by
  have h := partial_update_frame.1 exDB1 1
    { name := none, email := some "new@example.com", phone := none }
    exDB1Upd exClient1Upd exClient1 (by decide) rfl
  exact ⟨h.1, h.2.1 rfl, h.2.2.2.1 rfl, h.2.2.2.2⟩

theorem find?_isSome_of_mem {α : Type} (p : α → Bool) {l : List α} {a : α}
    (ha : a ∈ l) (hp : p a = true) : ∃ b, l.find? p = some b := by
  induction l with
  | nil => cases ha
  | cons x xs ih =>
    by_cases hx : p x = true
    · exact ⟨x, by simp [List.find?_cons, hx]⟩
    · rcases List.mem_cons.mp ha with rfl | ha2
      · exact absurd hp hx
      · obtain ⟨b, hb⟩ := ih ha2
        exact ⟨b, by simp [List.find?_cons, hx, hb]⟩

/-- C7: creating a client whose email equals an existing client's email
fails with `DuplicateEmail`; updating a client's email to another client's
email fails the same way; updating a client's email to its own current
value succeeds. -/
theorem duplicate_email_rule :
    (∀ (db : DB) (p : ClientCreate) (c : Client),
      c ∈ db.clients → c.email = p.email →
        create_client db p = .error .duplicateEmail) ∧
    (∀ (db : DB) (id : Nat) (payload : ClientUpdate) (e : String) (c c2 : Client),
      findClient db id = some c → payload.email = some e →
      c2 ∈ db.clients → c2.email = e → c2.client_id ≠ id →
        update_client db id payload = .error .duplicateEmail) ∧
    (∀ (db : DB) (id : Nat) (payload : ClientUpdate) (c : Client),
      findClient db id = some c → payload.email = some c.email →
      (∀ c2 ∈ db.clients, c2.email = c.email → c2.client_id = id) →
        ∃ db2 r, update_client db id payload = .ok (db2, r) ∧ r.email = c.email) := by
  refine ⟨?_, ?_, ?_⟩
  · intro db p c hc hemail
    obtain ⟨b, hb⟩ := find?_isSome_of_mem (fun c2 => c2.email == p.email) hc
      (by simp [hemail])
    simp [create_client, hb]
  · intro db id payload e c c2 hfind hpe hc2 hc2e hc2id
    obtain ⟨b, hb⟩ := find?_isSome_of_mem
      (fun c3 => c3.email == e && c3.client_id != id) hc2 (by simp [hc2e, hc2id])
    simp [update_client, hfind, hpe, hb]
  · intro db id payload c hfind hpe hown
    have hnone : db.clients.find? (fun c2 => c2.email == c.email && c2.client_id != id)
        = none := by
      rw [List.find?_eq_none]
      intro x hx
      simp only [Bool.and_eq_true, beq_iff_eq, bne_iff_ne, ne_eq, not_and]
      intro hxe
      simpa using hown x hx hxe
    refine ⟨{ db with
        clients := db.clients.map (fun x =>
          if x.client_id == id then applyClientUpdate c payload else x) },
      applyClientUpdate c payload, ?_, ?_⟩
    · simp [update_client, hfind, hpe, hnone]
    · simp [applyClientUpdate, hpe]

/-- C7 witness: duplicate creation rejected, clashing email update rejected,
own-email update accepted, all on concrete stores. -/
theorem duplicate_email_rule_witness :
    create_client exDBTwoClients
        { name := "Imposter", email := "ada@example.com", phone := none }
      = .error .duplicateEmail ∧
    update_client exDBTwoClients 2
        { name := none, email := some "ada@example.com", phone := none }
      = .error .duplicateEmail ∧
    (∃ db2 r, update_client exDBTwoClients 1
        { name := none, email := some "ada@example.com", phone := none }
      = .ok (db2, r) ∧ r.email = "ada@example.com") := by
  refine ⟨?_, ?_, ?_⟩
  · exact duplicate_email_rule.1 exDBTwoClients _ exClient1 (by decide) rfl
  · exact duplicate_email_rule.2.1 exDBTwoClients 2 _ "ada@example.com"
      exClient2 exClient1 rfl rfl (by decide) rfl (by decide)
  · exact duplicate_email_rule.2.2 exDBTwoClients 1 _ exClient1 rfl rfl
      (by decide)

/-- Field frame of `clearDeletedShootRef`: only the shoot reference can
change. -/
theorem clearDeletedShootRef_frame (db : DB) (cid : Nat) (i : Invoice) :
    (clearDeletedShootRef db cid i).invoice_id = i.invoice_id ∧
    (clearDeletedShootRef db cid i).client_id = i.client_id ∧
    (clearDeletedShootRef db cid i).package_id = i.package_id ∧
    (clearDeletedShootRef db cid i).amount = i.amount ∧
    (clearDeletedShootRef db cid i).status = i.status ∧
    (clearDeletedShootRef db cid i).issued_date = i.issued_date ∧
    (clearDeletedShootRef db cid i).due_date = i.due_date := by
  unfold clearDeletedShootRef
  split <;> simp

/-- C9 counterexample: records owned by other clients are NOT always
unaffected: client 2's invoice references client 1's shoot (invoice
creation checks only shoot existence, not ownership); deleting client 1
cascade-deletes that shoot and the SET NULL policy clears the surviving
invoice's shoot reference, so the invoice record of client 2 changes. -/
theorem delete_client_cross_ref_counterexample :
    exInvoiceCross.client_id ≠ 1 ∧
    exInvoiceCross ∈ exDBCross.invoices ∧
    delete_client exDBCross 1 = .ok
      { clients := [exClient2], shoots := [], packages := []
        invoices := [{ exInvoiceCross with shoot_id := none }], payments := [] } ∧
    exInvoiceCross ∉
      [({ exInvoiceCross with shoot_id := none } : Invoice)] := by
  refine ⟨by decide, by decide, by decide, by decide⟩

/-- C9 (amended): deleting an existing client succeeds and removes exactly
that client, its shoots, its invoices, and the payments of those invoices;
other clients' clients, shoots, payments and packages survive untouched,
and other clients' invoices survive with every field unchanged except that
an invoice referencing one of the deleted client's shoots has its shoot
reference set to null. -/
theorem delete_client_cascade (db : DB) (cid : Nat) (c : Client)
    (hfind : findClient db cid = some c) :
    ∃ db2, delete_client db cid = .ok db2 ∧
      (∀ x : Client, x ∈ db2.clients ↔ x ∈ db.clients ∧ x.client_id ≠ cid) ∧
      (∀ s : Shoot, s ∈ db2.shoots ↔ s ∈ db.shoots ∧ s.client_id ≠ cid) ∧
      (∀ i : Invoice, i ∈ db2.invoices ↔
        ∃ i0, i0 ∈ db.invoices ∧ i0.client_id ≠ cid ∧
          i = clearDeletedShootRef db cid i0) ∧
      (∀ p : Payment, p ∈ db2.payments ↔ p ∈ db.payments ∧
        ¬ ∃ i, i ∈ db.invoices ∧ i.client_id = cid ∧ i.invoice_id = p.invoice_id) ∧
      db2.packages = db.packages ∧
      (∀ i : Invoice,
        (clearDeletedShootRef db cid i).invoice_id = i.invoice_id ∧
        (clearDeletedShootRef db cid i).client_id = i.client_id ∧
        (clearDeletedShootRef db cid i).package_id = i.package_id ∧
        (clearDeletedShootRef db cid i).amount = i.amount ∧
        (clearDeletedShootRef db cid i).status = i.status ∧
        (clearDeletedShootRef db cid i).issued_date = i.issued_date ∧
        (clearDeletedShootRef db cid i).due_date = i.due_date) ∧
      (∀ i : Invoice,
        (∀ sid, i.shoot_id = some sid →
          ¬ ∃ s, s ∈ db.shoots ∧ s.client_id = cid ∧ s.shoot_id = sid) →
        clearDeletedShootRef db cid i = i) := by
  refine ⟨{ db with
      clients := db.clients.filter (fun x => x.client_id ≠ cid)
      shoots := db.shoots.filter (fun s => s.client_id ≠ cid)
      invoices := (db.invoices.filter (fun i => i.client_id ≠ cid)).map
        (clearDeletedShootRef db cid)
      payments := db.payments.filter (fun p =>
        ! db.invoices.any (fun i => i.client_id == cid && i.invoice_id == p.invoice_id)) },
    by simp [delete_client, hfind], ?_, ?_, ?_, ?_, rfl,
    clearDeletedShootRef_frame db cid, ?_⟩
  · intro x
    simp [List.mem_filter]
  · intro s
    simp [List.mem_filter]
  · intro i
    simp only [List.mem_map, List.mem_filter]
    constructor
    · rintro ⟨i0, ⟨hmem, hne⟩, heq⟩
      exact ⟨i0, hmem, by simpa using hne, heq.symm⟩
    · rintro ⟨i0, hmem, hne, heq⟩
      exact ⟨i0, ⟨hmem, by simpa using hne⟩, heq.symm⟩
  · intro p
    simp [List.mem_filter, List.any_eq_true]
  · intro i h
    unfold clearDeletedShootRef
    rw [if_neg]
    intro hany
    rcases hs : i.shoot_id with _ | sid
    · rw [hs] at hany
      simp at hany
    · rw [hs] at hany
      simp only [Option.any_some, List.any_eq_true, Bool.and_eq_true,
        beq_iff_eq] at hany
      obtain ⟨s, hsmem, hscl, hsid⟩ := hany
      exact h sid hs ⟨s, hsmem, hscl, hsid⟩

/-- C9 witness: on a two-client store with no cross-client shoot
references, deleting client 1 removes its shoot, invoice and payment, and
leaves client 2's records present and unchanged. -/
theorem delete_client_cascade_witness :
    ∃ db2, delete_client exDBCascade 1 = .ok db2 ∧
      exClient2 ∈ db2.clients ∧ exClient1 ∉ db2.clients ∧
      exShoot2 ∈ db2.shoots ∧ exShoot1 ∉ db2.shoots ∧
      exInvoice2 ∈ db2.invoices ∧ exInvoice1 ∉ db2.invoices ∧
      exPayment2 ∈ db2.payments ∧ exPayment1 ∉ db2.payments := by
  obtain ⟨db2, hdel, hc, hs, hi, hp, _, _, _⟩ :=
    delete_client_cascade exDBCascade 1 exClient1 rfl
  refine ⟨db2, hdel, ?_, ?_, ?_, ?_, ?_, ?_, ?_, ?_⟩
  · exact (hc exClient2).mpr (by decide)
  · intro hmem
    exact absurd ((hc exClient1).mp hmem) (by decide)
  · exact (hs exShoot2).mpr (by decide)
  · intro hmem
    exact absurd ((hs exShoot1).mp hmem) (by decide)
  · exact (hi exInvoice2).mpr ⟨exInvoice2, by decide, by decide, by decide⟩
  · intro hmem
    obtain ⟨i0, hmem0, hne, heq⟩ := (hi exInvoice1).mp hmem
    rcases List.mem_cons.mp hmem0 with rfl | h2
    · exact hne (by decide)
    · rcases List.mem_singleton.mp h2 with rfl
      exact absurd heq (by decide)
  · exact (hp exPayment2).mpr (by decide)
  · intro hmem
    exact absurd ((hp exPayment1).mp hmem) (by decide)

theorem sortBySorted {α : Type} (r : α → α → Prop) [DecidableRel r]
    (tot : ∀ a b, r a b ∨ r b a) (tr : ∀ a b c, r a b → r b c → r a c)
    (l : List α) : List.Sorted r (List.insertionSort r l) := by
  haveI : IsTotal α r := ⟨tot⟩
  haveI : IsTrans α r := ⟨fun a b c => tr a b c⟩
  exact List.sorted_insertionSort r l

theorem clientIdAsc_total (a b : Client) : clientIdAsc a b ∨ clientIdAsc b a := by
  unfold clientIdAsc; omega

theorem clientIdAsc_trans (a b c : Client) :
    clientIdAsc a b → clientIdAsc b c → clientIdAsc a c := by
  unfold clientIdAsc; omega

theorem paymentIdDesc_total (a b : Payment) : paymentIdDesc a b ∨ paymentIdDesc b a := by
  unfold paymentIdDesc; omega

theorem paymentIdDesc_trans (a b c : Payment) :
    paymentIdDesc a b → paymentIdDesc b c → paymentIdDesc a c := by
  unfold paymentIdDesc; omega

theorem packageIdDesc_total (a b : Package) : packageIdDesc a b ∨ packageIdDesc b a := by
  unfold packageIdDesc; omega

theorem packageIdDesc_trans (a b c : Package) :
    packageIdDesc a b → packageIdDesc b c → packageIdDesc a c := by
  unfold packageIdDesc; omega

theorem shootDateDesc_total (a b : Shoot) : shootDateDesc a b ∨ shootDateDesc b a := by
  unfold shootDateDesc; omega

theorem shootDateDesc_trans (a b c : Shoot) :
    shootDateDesc a b → shootDateDesc b c → shootDateDesc a c := by
  unfold shootDateDesc; omega

theorem invoiceDateDesc_total (a b : Invoice) : invoiceDateDesc a b ∨ invoiceDateDesc b a := by
  unfold invoiceDateDesc; omega

theorem invoiceDateDesc_trans (a b c : Invoice) :
    invoiceDateDesc a b → invoiceDateDesc b c → invoiceDateDesc a c := by
  unfold invoiceDateDesc; omega

/-- C6 counterexample: the payment list endpoint is NOT ordered by the
natural date field (`paid_at`) most-recent-first: with two payments whose
id order opposes their timestamp order, the code returns them by id
descending, which is not sorted by timestamp. -/
theorem list_payments_order_counterexample :
    list_payments exDBPayOrder 0 50 = [exPayOld, exPayNew] ∧
    ¬ List.Sorted paymentPaidAtDesc (list_payments exDBPayOrder 0 50) := by
  constructor
  · decide
  · decide

/-- C6 (amended): every list endpoint returns a `skip`/`limit` window of a
sorted permutation of its table — Client by id ascending, Shoot by
date/id descending, Invoice by issued-date/id descending, Payment by id
descending, Package by id descending — with `skip ≥ 0`,
`1 ≤ limit ≤ 200` validated (defaults 0 and 50 pass validation, anything
out of range is rejected). -/
theorem list_order_and_pagination (db : DB) (skip limit : Int)
    (h0 : 0 ≤ skip) (h1 : 1 ≤ limit) (h2 : limit ≤ 200) :
    (∃ full, full.Perm db.clients ∧ List.Sorted clientIdAsc full ∧
      list_clients_endpoint db skip limit
        = .ok ((full.drop skip.toNat).take limit.toNat)) ∧
    (∃ full, full.Perm db.shoots ∧ List.Sorted shootDateDesc full ∧
      list_shoots_endpoint db skip limit
        = .ok ((full.drop skip.toNat).take limit.toNat)) ∧
    (∃ full, full.Perm db.invoices ∧ List.Sorted invoiceDateDesc full ∧
      list_invoices_endpoint db skip limit none none
        = .ok ((full.drop skip.toNat).take limit.toNat)) ∧
    (∃ full, full.Perm db.payments ∧ List.Sorted paymentIdDesc full ∧
      list_payments_endpoint db skip limit
        = .ok ((full.drop skip.toNat).take limit.toNat)) ∧
    (∃ full, full.Perm db.packages ∧ List.Sorted packageIdDesc full ∧
      list_packages_endpoint db skip limit
        = .ok ((full.drop skip.toNat).take limit.toNat)) ∧
    checkPagination defaultSkip defaultLimit = .ok (0, 50) ∧
    (∀ s l : Int, s < 0 ∨ l < 1 ∨ 200 < l →
      checkPagination s l = .error .validationError) := by
  have hck : checkPagination skip limit = .ok (skip.toNat, limit.toNat) := by
    simp [checkPagination, not_lt.mpr h0, not_lt.mpr h1, not_lt.mpr h2]
  refine ⟨?_, ?_, ?_, ?_, ?_, ?_, ?_⟩
  · exact ⟨List.insertionSort clientIdAsc db.clients,
      List.perm_insertionSort clientIdAsc db.clients,
      sortBySorted clientIdAsc clientIdAsc_total clientIdAsc_trans db.clients,
      by simp [list_clients_endpoint, hck, Except.map, list_clients]⟩
  · exact ⟨List.insertionSort shootDateDesc db.shoots,
      List.perm_insertionSort shootDateDesc db.shoots,
      sortBySorted shootDateDesc shootDateDesc_total shootDateDesc_trans db.shoots,
      by simp [list_shoots_endpoint, hck, Except.map, list_shoots]⟩
  · exact ⟨List.insertionSort invoiceDateDesc db.invoices,
      List.perm_insertionSort invoiceDateDesc db.invoices,
      sortBySorted invoiceDateDesc invoiceDateDesc_total invoiceDateDesc_trans db.invoices,
      by simp [list_invoices_endpoint, hck, Except.map, list_invoices]⟩
  · exact ⟨List.insertionSort paymentIdDesc db.payments,
      List.perm_insertionSort paymentIdDesc db.payments,
      sortBySorted paymentIdDesc paymentIdDesc_total paymentIdDesc_trans db.payments,
      by simp [list_payments_endpoint, hck, Except.map, list_payments]⟩
  · exact ⟨List.insertionSort packageIdDesc db.packages,
      List.perm_insertionSort packageIdDesc db.packages,
      sortBySorted packageIdDesc packageIdDesc_total packageIdDesc_trans db.packages,
      by simp [list_packages_endpoint, hck, Except.map, list_packages]⟩
  · decide
  · intro s l h
    rcases h with hs | hl | hl2
    · simp [checkPagination, hs]
    · by_cases hs2 : s < 0
      · simp [checkPagination, hs2]
      · simp [checkPagination, hs2, hl]
    · by_cases hs2 : s < 0
      · simp [checkPagination, hs2]
      · by_cases hl1 : l < 1
        · simp [checkPagination, hs2, hl1]
        · simp [checkPagination, hs2, hl1, hl2]

/-- C6 witness: the amended ordering statement at `exDBCascade` with the
default pagination parameters. -/
theorem list_order_and_pagination_witness :
    ∃ full, full.Perm exDBCascade.payments ∧ List.Sorted paymentIdDesc full ∧
      list_payments_endpoint exDBCascade 0 50
        = .ok ((full.drop (0 : Int).toNat).take (50 : Int).toNat) :=
  (list_order_and_pagination exDBCascade 0 50 (by decide) (by decide)
    (by decide)).2.2.2.1

/-- The keyword arguments written in `report_invoices` never satisfy the
`ReportInvoiceRow` schema: the schema requires `invoice_amount` (and
`payment_status`) while the router passes `amount` (and `status`), so
pydantic validation fails on every row, whatever the row's values. -/
theorem mkReportInvoiceRow_router_kwargs (iid idate : Nat) (dd : Option Nat)
    (cn : String) (pn : Option String) (am tp bal : Int) (st : String) :
    mkReportInvoiceRow
      [("invoice_id", .vNat iid), ("issued_date", .vNat idate),
       ("due_date", pyOptNat dd), ("client_name", .vStr cn),
       ("package_name", pyOptStr pn), ("amount", .vInt am),
       ("total_paid", .vInt tp), ("balance", .vInt bal),
       ("status", .vStr st)] = .error "field required: invoice_amount" := by
  cases pn <;> cases dd <;> rfl

/-- Whenever the report query returns at least one row, the endpoint fails
instead of producing report rows. -/
theorem report_invoices_always_fails (db : DB) (d1 d2 : Option Nat)
    (h : reportSqlRows db d1 d2 ≠ []) :
    report_invoices db d1 d2 = .error "field required: invoice_amount" := by
  rcases hrows : reportSqlRows db d1 d2 with _ | ⟨r, rs⟩
  · exact absurd hrows h
  · unfold report_invoices
    rw [hrows]
    rw [List.mapM_cons]
    rw [mkReportInvoiceRow_router_kwargs]
    rfl

/-- C4 (code bug): on a store with one invoice resolvable to its client,
the report query yields one row but the endpoint fails with a pydantic
validation error (`invoice_amount` missing) instead of returning the row
that matches the single-invoice summary: `schemas.ReportInvoiceRow` names
its fields `invoice_amount`/`payment_status` while the router constructs it
with `amount`/`status` (and a nonexistent `due_date`). -/
theorem report_schema_mismatch :
    reportSqlRows exDB1 none none ≠ [] ∧
    report_invoices exDB1 none none = .error "field required: invoice_amount" := by
  constructor
  · decide
  · rfl

theorem sumFor_cons (p : Payment) (ps : List Payment) (iid : Nat) :
    sumFor (p :: ps) iid
      = (if p.invoice_id = iid then p.amount else 0) + sumFor ps iid := by
  by_cases h : p.invoice_id = iid <;> simp [sumFor, List.filter_cons, h]

theorem sumFor_filter_le (ps : List Payment) (f : Payment → Bool) (iid : Nat)
    (hpos : ∀ p ∈ ps, 0 ≤ p.amount) :
    sumFor (ps.filter f) iid ≤ sumFor ps iid := by
  induction ps with
  | nil => simp [sumFor]
  | cons p ps ih =>
    have hp := hpos p (List.mem_cons_self p ps)
    have hrest := ih (fun q hq => hpos q (List.mem_cons_of_mem p hq))
    by_cases hf : f p = true
    · rw [List.filter_cons_of_pos hf, sumFor_cons, sumFor_cons]
      exact add_le_add le_rfl hrest
    · rw [List.filter_cons_of_neg (by simpa using hf), sumFor_cons]
      have : (0 : Int) ≤ if p.invoice_id = iid then p.amount else 0 := by
        by_cases h : p.invoice_id = iid <;> simp [h, hp]
      linarith

theorem sumFor_eq_zero (ps : List Payment) (iid : Nat)
    (h : ∀ p ∈ ps, p.invoice_id ≠ iid) : sumFor ps iid = 0 := by
  have : ps.filter (fun p => p.invoice_id == iid) = [] := by
    rw [List.filter_eq_nil_iff]
    intro p hp
    simpa using h p hp
  simp [sumFor, this]

theorem le_maxInvoiceId {i : Invoice} {l : List Invoice} (h : i ∈ l) :
    i.invoice_id ≤ maxInvoiceId l := by
  induction l with
  | nil => cases h
  | cons x xs ih =>
    rcases List.mem_cons.mp h with rfl | h2
    · simp [maxInvoiceId]
    · exact le_trans (ih h2) (by simp [maxInvoiceId])

/-- The predicate `WFdb` only depends on the invoice and payment tables. -/
theorem wf_of_same {db db2 : DB} (hi : db2.invoices = db.invoices)
    (hp : db2.payments = db.payments) (h : WFdb db) : WFdb db2 := by
  unfold WFdb at *
  rw [hi, hp]
  exact h

/-- The predicate `PaymentsWithin` only depends on the invoice and payment tables. -/
theorem pw_of_same {db db2 : DB} (hi : db2.invoices = db.invoices)
    (hp : db2.payments = db.payments) (h : PaymentsWithin db) :
    PaymentsWithin db2 := by
  unfold PaymentsWithin sumPayments at *
  rw [hi, hp]
  exact h

/-- Success shape of `create_invoice`. -/
theorem create_invoice_ok {db : DB} {payload : InvoiceCreate} {db2 : DB}
    {r : Invoice} (h : create_invoice db payload = .ok (db2, r)) :
    r.invoice_id = maxInvoiceId db.invoices + 1 ∧ r.amount = payload.amount ∧
    db2 = { db with invoices := db.invoices ++ [r] } := by
  rcases hf : findClient db payload.client_id with _ | c
  · simp [create_invoice, hf] at h
  · by_cases h1 : payload.shoot_id.any (fun sid => (findShoot db sid).isNone)
    · simp [create_invoice, hf, h1] at h
    · by_cases h2 : payload.package_id.any (fun pid => (findPackage db pid).isNone)
      · simp [create_invoice, hf, h1, h2] at h
      · simp [create_invoice, hf, h1, h2] at h
        rcases h with ⟨hdb, hr⟩
        subst hr
        exact ⟨rfl, rfl, hdb.symm⟩

/-- Success shape of `create_payment`. -/
theorem create_payment_ok {db : DB} {now : Nat} {payload : PaymentCreate}
    {db2 : DB} {pay : Payment}
    (h : create_payment db now payload = .ok (db2, pay)) :
    0 < payload.amount ∧ pay.invoice_id = payload.invoice_id ∧
    pay.amount = payload.amount ∧
    (∃ inv, findInvoice db payload.invoice_id = some inv ∧
      sumFor db.payments inv.invoice_id + payload.amount ≤ inv.amount) ∧
    db2 = { db with payments := db.payments ++ [pay] } := by
  by_cases h1 : payload.amount ≤ 0
  · simp [create_payment, h1] at h
  · rcases hf : findInvoice db payload.invoice_id with _ | inv
    · simp [create_payment, h1, hf] at h
    · by_cases h2 : inv.amount < sumPayments db inv.invoice_id + payload.amount
      · simp [create_payment, h1, hf, h2] at h
      · simp [create_payment, h1, hf, h2] at h
        rcases h with ⟨hdb, hpay⟩
        subst hpay
        exact ⟨by omega, rfl, rfl,
          ⟨inv, rfl, by simpa [sumPayments] using not_lt.mp h2⟩, hdb.symm⟩

/-- Every API operation preserves store well-formedness. -/
theorem wf_step (db : DB) (op : Op) (hwf : WFdb db) : WFdb (step db op) := by
  obtain ⟨hnodup, hpos, hfk⟩ := hwf
  cases op with
  | opCreateClient p =>
    rcases hf : db.clients.find? (fun c => c.email == p.email) with _ | c <;>
      exact wf_of_same (by simp [step, commit, create_client, hf, Except.map])
        (by simp [step, commit, create_client, hf, Except.map]) ⟨hnodup, hpos, hfk⟩
  | opUpdateClient id p =>
    rcases hu : update_client db id p with e | pr
    · exact wf_of_same (by simp [step, commit, hu, Except.map])
        (by simp [step, commit, hu, Except.map]) ⟨hnodup, hpos, hfk⟩
    · obtain ⟨c, _, _, hdb⟩ := update_client_ok
        (show update_client db id p = .ok (pr.1, pr.2) by rw [Prod.mk.eta]; exact hu)
      exact wf_of_same (by simp [step, commit, hu, Except.map, hdb])
        (by simp [step, commit, hu, Except.map, hdb]) ⟨hnodup, hpos, hfk⟩
  | opDeleteClient id =>
    rcases hf : findClient db id with _ | c
    · exact wf_of_same (by simp [step, commit, delete_client, hf])
        (by simp [step, commit, delete_client, hf]) ⟨hnodup, hpos, hfk⟩
    · have hstep : step db (.opDeleteClient id) = { db with
          clients := db.clients.filter (fun x => x.client_id ≠ id)
          shoots := db.shoots.filter (fun s => s.client_id ≠ id)
          invoices := (db.invoices.filter (fun i => i.client_id ≠ id)).map
            (clearDeletedShootRef db id)
          payments := db.payments.filter (fun p =>
            ! db.invoices.any (fun i =>
              i.client_id == id && i.invoice_id == p.invoice_id)) } := by
        simp [step, commit, delete_client, hf]
      rw [hstep]
      refine ⟨?_, ?_, ?_⟩
      · rw [List.map_map]
        simp only [Function.comp_def]
        rw [List.map_congr_left (fun a _ => (clearDeletedShootRef_frame db id a).1)]
        exact List.Nodup.sublist
          (List.Sublist.map _ (List.filter_sublist _)) hnodup
      · intro p hp
        exact hpos p (List.mem_filter.mp hp).1
      · intro p hp
        rcases List.mem_filter.mp hp with ⟨hpmem, hpred⟩
        obtain ⟨i0, hi0mem, hi0id⟩ := hfk p hpmem
        have hine : i0.client_id ≠ id := by
          intro hcl
          have hany : db.invoices.any (fun i =>
              i.client_id == id && i.invoice_id == p.invoice_id) = true :=
            List.any_eq_true.mpr ⟨i0, hi0mem, by simp [hcl, hi0id]⟩
          simp [hany] at hpred
        exact ⟨clearDeletedShootRef db id i0,
          List.mem_map.mpr
            ⟨i0, List.mem_filter.mpr ⟨hi0mem, by simpa using hine⟩, rfl⟩,
          by rw [(clearDeletedShootRef_frame db id i0).1]; exact hi0id⟩
  | opCreateShoot p =>
    rcases hf : findClient db p.client_id with _ | c <;>
      exact wf_of_same (by simp [step, commit, create_shoot, hf, Except.map])
        (by simp [step, commit, create_shoot, hf, Except.map]) ⟨hnodup, hpos, hfk⟩
  | opUpdateShoot id p =>
    rcases hu : update_shoot db id p with e | pr
    · exact wf_of_same (by simp [step, commit, hu, Except.map])
        (by simp [step, commit, hu, Except.map]) ⟨hnodup, hpos, hfk⟩
    · obtain ⟨s, _, _, hdb⟩ := update_shoot_ok
        (show update_shoot db id p = .ok (pr.1, pr.2) by rw [Prod.mk.eta]; exact hu)
      exact wf_of_same (by simp [step, commit, hu, Except.map, hdb])
        (by simp [step, commit, hu, Except.map, hdb]) ⟨hnodup, hpos, hfk⟩
  | opDeleteShoot id =>
    rcases hf : findShoot db id with _ | s
    · exact wf_of_same (by simp [step, commit, delete_shoot, hf])
        (by simp [step, commit, delete_shoot, hf]) ⟨hnodup, hpos, hfk⟩
    · have hstep : step db (.opDeleteShoot id) = { db with
          shoots := db.shoots.filter (fun s => s.shoot_id ≠ id)
          invoices := db.invoices.map (fun i =>
            if i.shoot_id == some id then { i with shoot_id := none } else i) } := by
        simp [step, commit, delete_shoot, hf]
      rw [hstep]
      have hid : ∀ i : Invoice,
          ((if i.shoot_id == some id then { i with shoot_id := none } else i) :
            Invoice).invoice_id = i.invoice_id := by
        intro i
        by_cases h : i.shoot_id = some id <;> simp [h]
      refine ⟨?_, hpos, ?_⟩
      · rw [List.map_map]
        simp only [Function.comp_def]
        rw [List.map_congr_left (fun a _ => hid a)]
        exact hnodup
      · intro p hp
        obtain ⟨i0, hi0mem, hi0id⟩ := hfk p hp
        exact ⟨_, List.mem_map.mpr ⟨i0, hi0mem, rfl⟩, by rw [hid i0]; exact hi0id⟩
  | opCreatePackage p =>
    exact wf_of_same (by simp [step, commit, create_package, Except.map])
      (by simp [step, commit, create_package, Except.map]) ⟨hnodup, hpos, hfk⟩
  | opUpdatePackage id p =>
    rcases hu : update_package db id p with e | pr
    · exact wf_of_same (by simp [step, commit, hu, Except.map])
        (by simp [step, commit, hu, Except.map]) ⟨hnodup, hpos, hfk⟩
    · obtain ⟨q, _, _, hdb⟩ := update_package_ok
        (show update_package db id p = .ok (pr.1, pr.2) by rw [Prod.mk.eta]; exact hu)
      exact wf_of_same (by simp [step, commit, hu, Except.map, hdb])
        (by simp [step, commit, hu, Except.map, hdb]) ⟨hnodup, hpos, hfk⟩
  | opDeletePackage id =>
    rcases hf : findPackage db id with _ | q
    · exact wf_of_same (by simp [step, commit, delete_package, hf])
        (by simp [step, commit, delete_package, hf]) ⟨hnodup, hpos, hfk⟩
    · have hstep : step db (.opDeletePackage id) = { db with
          packages := db.packages.filter (fun q => q.package_id ≠ id)
          invoices := db.invoices.map (fun i =>
            if i.package_id == some id then { i with package_id := none } else i) } := by
        simp [step, commit, delete_package, hf]
      rw [hstep]
      have hid : ∀ i : Invoice,
          ((if i.package_id == some id then { i with package_id := none } else i) :
            Invoice).invoice_id = i.invoice_id := by
        intro i
        by_cases h : i.package_id = some id <;> simp [h]
      refine ⟨?_, hpos, ?_⟩
      · rw [List.map_map]
        simp only [Function.comp_def]
        rw [List.map_congr_left (fun a _ => hid a)]
        exact hnodup
      · intro p hp
        obtain ⟨i0, hi0mem, hi0id⟩ := hfk p hp
        exact ⟨_, List.mem_map.mpr ⟨i0, hi0mem, rfl⟩, by rw [hid i0]; exact hi0id⟩
  | opCreateInvoice p =>
    rcases hc : create_invoice db p with e | pr
    · exact wf_of_same (by simp [step, commit, hc, Except.map])
        (by simp [step, commit, hc, Except.map]) ⟨hnodup, hpos, hfk⟩
    · obtain ⟨hrid, hram, hdb⟩ := create_invoice_ok
        (show create_invoice db p = .ok (pr.1, pr.2) by rw [Prod.mk.eta]; exact hc)
      have hstep : step db (.opCreateInvoice p) = pr.1 := by
        simp [step, commit, hc, Except.map]
      rw [hstep, hdb]
      refine ⟨?_, hpos, ?_⟩
      · rw [List.map_append]
        rw [List.nodup_append]
        refine ⟨hnodup, by simp, ?_⟩
        intro a ha hb
        simp only [List.map_cons, List.map_nil, List.mem_singleton] at hb
        obtain ⟨i0, hi0mem, hi0id⟩ := List.mem_map.mp ha
        have h1 := le_maxInvoiceId hi0mem
        rw [hb, hrid] at hi0id
        omega
      · intro q hq
        obtain ⟨i0, hi0mem, hi0id⟩ := hfk q hq
        exact ⟨i0, List.mem_append_left _ hi0mem, hi0id⟩
  | opUpdateInvoice id p =>
    rcases hu : update_invoice db id p with e | pr
    · exact wf_of_same (by simp [step, commit, hu, Except.map])
        (by simp [step, commit, hu, Except.map]) ⟨hnodup, hpos, hfk⟩
    · obtain ⟨i0, hfind0, hr, hdb⟩ := update_invoice_ok
        (show update_invoice db id p = .ok (pr.1, pr.2) by rw [Prod.mk.eta]; exact hu)
      have hi0id : i0.invoice_id = id := findInvoice_id_eq hfind0
      have hstep : step db (.opUpdateInvoice id p) = pr.1 := by
        simp [step, commit, hu, Except.map]
      rw [hstep, hdb]
      have hg : ∀ x : Invoice,
          ((if x.invoice_id == id then pr.2 else x) : Invoice).invoice_id
            = x.invoice_id := by
        intro x
        by_cases hx : x.invoice_id = id
        · simp [hx, hr, applyInvoiceUpdate, hi0id]
        · simp [hx]
      refine ⟨?_, hpos, ?_⟩
      · rw [List.map_map]
        simp only [Function.comp_def]
        rw [List.map_congr_left (fun a _ => hg a)]
        exact hnodup
      · intro q hq
        obtain ⟨iw, hiwmem, hiwid⟩ := hfk q hq
        exact ⟨_, List.mem_map.mpr ⟨iw, hiwmem, rfl⟩, by rw [hg iw]; exact hiwid⟩
  | opDeleteInvoice id =>
    rcases hf : findInvoice db id with _ | inv
    · exact wf_of_same (by simp [step, commit, delete_invoice, hf])
        (by simp [step, commit, delete_invoice, hf]) ⟨hnodup, hpos, hfk⟩
    · have hstep : step db (.opDeleteInvoice id) = { db with
          invoices := db.invoices.filter (fun i => i.invoice_id ≠ id)
          payments := db.payments.filter (fun p => p.invoice_id ≠ id) } := by
        simp [step, commit, delete_invoice, hf]
      rw [hstep]
      refine ⟨?_, ?_, ?_⟩
      · exact List.Nodup.sublist
          (List.Sublist.map _ (List.filter_sublist _)) hnodup
      · intro q hq
        exact hpos q (List.mem_filter.mp hq).1
      · intro q hq
        rcases List.mem_filter.mp hq with ⟨hqmem, hqpred⟩
        obtain ⟨iw, hiwmem, hiwid⟩ := hfk q hqmem
        have hne : iw.invoice_id ≠ id := by
          rw [hiwid]
          simpa using hqpred
        exact ⟨iw, List.mem_filter.mpr ⟨hiwmem, by simpa using hne⟩, hiwid⟩
  | opCreatePayment now p =>
    rcases hc : create_payment db now p with e | pr
    · exact wf_of_same (by simp [step, commit, hc, Except.map])
        (by simp [step, commit, hc, Except.map]) ⟨hnodup, hpos, hfk⟩
    · obtain ⟨hppos, hpid, hpam, ⟨inv, hfind, _⟩, hdb⟩ := create_payment_ok
        (show create_payment db now p = .ok (pr.1, pr.2) by rw [Prod.mk.eta]; exact hc)
      have hstep : step db (.opCreatePayment now p) = pr.1 := by
        simp [step, commit, hc, Except.map]
      rw [hstep, hdb]
      refine ⟨hnodup, ?_, ?_⟩
      · intro q hq
        rcases List.mem_append.mp hq with hq2 | hq2
        · exact hpos q hq2
        · rcases List.mem_singleton.mp hq2 with rfl
          rw [hpam]
          exact hppos
      · intro q hq
        rcases List.mem_append.mp hq with hq2 | hq2
        · exact hfk q hq2
        · rcases List.mem_singleton.mp hq2 with rfl
          exact ⟨inv, findInvoice_mem hfind, by rw [findInvoice_id_eq hfind, hpid]⟩
  | opDeletePayment id =>
    rcases hf : findPayment db id with _ | pay
    · exact wf_of_same (by simp [step, commit, delete_payment, hf])
        (by simp [step, commit, delete_payment, hf]) ⟨hnodup, hpos, hfk⟩
    · have hstep : step db (.opDeletePayment id) = { db with
          payments := db.payments.filter (fun p => p.payment_id ≠ id) } := by
        simp [step, commit, delete_payment, hf]
      rw [hstep]
      refine ⟨hnodup, ?_, ?_⟩
      · intro q hq
        exact hpos q (List.mem_filter.mp hq).1
      · intro q hq
        exact hfk q (List.mem_filter.mp hq).1

/-- A single operation preserves the overpayment invariant, provided
invoices are created with non-negative amounts and invoice-amount updates
do not go below the invoice's current paid total. -/
theorem pw_step (db : DB) (op : Op) (hwf : WFdb db) (hinv : PaymentsWithin db)
    (hg : goodOp db op = true) : PaymentsWithin (step db op) := by
  obtain ⟨hnodup, hpos, hfk⟩ := hwf
  have hpos0 : ∀ p ∈ db.payments, (0 : Int) ≤ p.amount :=
    fun p hp => le_of_lt (hpos p hp)
  cases op with
  | opCreateClient p =>
    rcases hf : db.clients.find? (fun c => c.email == p.email) with _ | c <;>
      exact pw_of_same (by simp [step, commit, create_client, hf, Except.map])
        (by simp [step, commit, create_client, hf, Except.map]) hinv
  | opUpdateClient id p =>
    rcases hu : update_client db id p with e | pr
    · exact pw_of_same (by simp [step, commit, hu, Except.map])
        (by simp [step, commit, hu, Except.map]) hinv
    · obtain ⟨c, _, _, hdb⟩ := update_client_ok
        (show update_client db id p = .ok (pr.1, pr.2) by rw [Prod.mk.eta]; exact hu)
      exact pw_of_same (by simp [step, commit, hu, Except.map, hdb])
        (by simp [step, commit, hu, Except.map, hdb]) hinv
  | opDeleteClient id =>
    rcases hf : findClient db id with _ | c
    · exact pw_of_same (by simp [step, commit, delete_client, hf])
        (by simp [step, commit, delete_client, hf]) hinv
    · have hstep : step db (.opDeleteClient id) = { db with
          clients := db.clients.filter (fun x => x.client_id ≠ id)
          shoots := db.shoots.filter (fun s => s.client_id ≠ id)
          invoices := (db.invoices.filter (fun i => i.client_id ≠ id)).map
            (clearDeletedShootRef db id)
          payments := db.payments.filter (fun p =>
            ! db.invoices.any (fun i =>
              i.client_id == id && i.invoice_id == p.invoice_id)) } := by
        simp [step, commit, delete_client, hf]
      rw [hstep]
      intro inv hmem
      obtain ⟨i0, hmem0, heq⟩ := List.mem_map.mp hmem
      have hmem1 := (List.mem_filter.mp hmem0).1
      have hamt : inv.amount = i0.amount := by
        rw [← heq, (clearDeletedShootRef_frame db id i0).2.2.2.1]
      have hiid : inv.invoice_id = i0.invoice_id := by
        rw [← heq, (clearDeletedShootRef_frame db id i0).1]
      rw [hamt, hiid]
      exact le_trans (sumFor_filter_le _ _ _ hpos0) (hinv i0 hmem1)
  | opCreateShoot p =>
    rcases hf : findClient db p.client_id with _ | c <;>
      exact pw_of_same (by simp [step, commit, create_shoot, hf, Except.map])
        (by simp [step, commit, create_shoot, hf, Except.map]) hinv
  | opUpdateShoot id p =>
    rcases hu : update_shoot db id p with e | pr
    · exact pw_of_same (by simp [step, commit, hu, Except.map])
        (by simp [step, commit, hu, Except.map]) hinv
    · obtain ⟨s, _, _, hdb⟩ := update_shoot_ok
        (show update_shoot db id p = .ok (pr.1, pr.2) by rw [Prod.mk.eta]; exact hu)
      exact pw_of_same (by simp [step, commit, hu, Except.map, hdb])
        (by simp [step, commit, hu, Except.map, hdb]) hinv
  | opDeleteShoot id =>
    rcases hf : findShoot db id with _ | s
    · exact pw_of_same (by simp [step, commit, delete_shoot, hf])
        (by simp [step, commit, delete_shoot, hf]) hinv
    · have hstep : step db (.opDeleteShoot id) = { db with
          shoots := db.shoots.filter (fun s => s.shoot_id ≠ id)
          invoices := db.invoices.map (fun i =>
            if i.shoot_id == some id then { i with shoot_id := none } else i) } := by
        simp [step, commit, delete_shoot, hf]
      rw [hstep]
      intro inv hmem
      obtain ⟨i0, hi0mem, hi0eq⟩ := List.mem_map.mp hmem
      have hamt : inv.amount = i0.amount := by
        rw [← hi0eq]
        by_cases h : i0.shoot_id = some id <;> simp [h]
      have hiid : inv.invoice_id = i0.invoice_id := by
        rw [← hi0eq]
        by_cases h : i0.shoot_id = some id <;> simp [h]
      rw [show sumPayments { db with
          shoots := db.shoots.filter (fun s => s.shoot_id ≠ id)
          invoices := db.invoices.map (fun i =>
            if i.shoot_id == some id then { i with shoot_id := none } else i) }
          inv.invoice_id = sumFor db.payments inv.invoice_id from rfl]
      rw [hamt, hiid]
      exact hinv i0 hi0mem
  | opCreatePackage p =>
    exact pw_of_same (by simp [step, commit, create_package, Except.map])
      (by simp [step, commit, create_package, Except.map]) hinv
  | opUpdatePackage id p =>
    rcases hu : update_package db id p with e | pr
    · exact pw_of_same (by simp [step, commit, hu, Except.map])
        (by simp [step, commit, hu, Except.map]) hinv
    · obtain ⟨q, _, _, hdb⟩ := update_package_ok
        (show update_package db id p = .ok (pr.1, pr.2) by rw [Prod.mk.eta]; exact hu)
      exact pw_of_same (by simp [step, commit, hu, Except.map, hdb])
        (by simp [step, commit, hu, Except.map, hdb]) hinv
  | opDeletePackage id =>
    rcases hf : findPackage db id with _ | q
    · exact pw_of_same (by simp [step, commit, delete_package, hf])
        (by simp [step, commit, delete_package, hf]) hinv
    · have hstep : step db (.opDeletePackage id) = { db with
          packages := db.packages.filter (fun q => q.package_id ≠ id)
          invoices := db.invoices.map (fun i =>
            if i.package_id == some id then { i with package_id := none } else i) } := by
        simp [step, commit, delete_package, hf]
      rw [hstep]
      intro inv hmem
      obtain ⟨i0, hi0mem, hi0eq⟩ := List.mem_map.mp hmem
      have hamt : inv.amount = i0.amount := by
        rw [← hi0eq]
        by_cases h : i0.package_id = some id <;> simp [h]
      have hiid : inv.invoice_id = i0.invoice_id := by
        rw [← hi0eq]
        by_cases h : i0.package_id = some id <;> simp [h]
      rw [show sumPayments { db with
          packages := db.packages.filter (fun q => q.package_id ≠ id)
          invoices := db.invoices.map (fun i =>
            if i.package_id == some id then { i with package_id := none } else i) }
          inv.invoice_id = sumFor db.payments inv.invoice_id from rfl]
      rw [hamt, hiid]
      exact hinv i0 hi0mem
  | opCreateInvoice p =>
    rcases hc : create_invoice db p with e | pr
    · exact pw_of_same (by simp [step, commit, hc, Except.map])
        (by simp [step, commit, hc, Except.map]) hinv
    · obtain ⟨hrid, hram, hdb⟩ := create_invoice_ok
        (show create_invoice db p = .ok (pr.1, pr.2) by rw [Prod.mk.eta]; exact hc)
      have hstep : step db (.opCreateInvoice p) = pr.1 := by
        simp [step, commit, hc, Except.map]
      have hamt : (0 : Int) ≤ p.amount := by
        simpa [goodOp] using hg
      rw [hstep, hdb]
      intro inv hmem
      rcases List.mem_append.mp hmem with hmem2 | hmem2
      · exact hinv inv hmem2
      · rcases List.mem_singleton.mp hmem2 with rfl
        have hzero : sumFor db.payments pr.2.invoice_id = 0 := by
          apply sumFor_eq_zero
          intro q hq
          obtain ⟨i0, hi0mem, hi0id⟩ := hfk q hq
          have := le_maxInvoiceId hi0mem
          rw [← hi0id]
          rw [hrid]
          omega
        rw [show sumPayments { db with invoices := db.invoices ++ [pr.2] }
            pr.2.invoice_id = sumFor db.payments pr.2.invoice_id from rfl]
        rw [hzero, hram]
        exact hamt
  | opUpdateInvoice id p =>
    rcases hu : update_invoice db id p with e | pr
    · exact pw_of_same (by simp [step, commit, hu, Except.map])
        (by simp [step, commit, hu, Except.map]) hinv
    · obtain ⟨i0, hfind0, hr, hdb⟩ := update_invoice_ok
        (show update_invoice db id p = .ok (pr.1, pr.2) by rw [Prod.mk.eta]; exact hu)
      have hi0id : i0.invoice_id = id := findInvoice_id_eq hfind0
      have hstep : step db (.opUpdateInvoice id p) = pr.1 := by
        simp [step, commit, hu, Except.map]
      rw [hstep, hdb]
      intro inv hmem
      obtain ⟨x, hxmem, hxeq⟩ := List.mem_map.mp hmem
      rw [show sumPayments { db with invoices := db.invoices.map (fun x =>
            if x.invoice_id == id then pr.2 else x) } inv.invoice_id
          = sumFor db.payments inv.invoice_id from rfl]
      by_cases hx : x.invoice_id = id
      · rw [if_pos (by simpa using hx)] at hxeq
        subst hxeq
        rw [hr, applyInvoiceUpdate]
        rcases hpa : p.amount with _ | a
        · simp only [hpa, Option.getD_none]
          exact hinv i0 (findInvoice_mem hfind0)
        · simp only [hpa, Option.getD_some]
          rw [hi0id]
          have hga := hg
          simp only [goodOp, hpa, decide_eq_true_eq] at hga
          exact hga
      · rw [if_neg (by simpa using hx)] at hxeq
        subst hxeq
        exact hinv x hxmem
  | opDeleteInvoice id =>
    rcases hf : findInvoice db id with _ | inv0
    · exact pw_of_same (by simp [step, commit, delete_invoice, hf])
        (by simp [step, commit, delete_invoice, hf]) hinv
    · have hstep : step db (.opDeleteInvoice id) = { db with
          invoices := db.invoices.filter (fun i => i.invoice_id ≠ id)
          payments := db.payments.filter (fun p => p.invoice_id ≠ id) } := by
        simp [step, commit, delete_invoice, hf]
      rw [hstep]
      intro inv hmem
      have hmem2 := (List.mem_filter.mp hmem).1
      exact le_trans (sumFor_filter_le _ _ _ hpos0) (hinv inv hmem2)
  | opCreatePayment now p =>
    rcases hc : create_payment db now p with e | pr
    · exact pw_of_same (by simp [step, commit, hc, Except.map])
        (by simp [step, commit, hc, Except.map]) hinv
    · obtain ⟨hppos, hpid, hpam, ⟨inv0, hfind, hle⟩, hdb⟩ := create_payment_ok
        (show create_payment db now p = .ok (pr.1, pr.2) by rw [Prod.mk.eta]; exact hc)
      have hstep : step db (.opCreatePayment now p) = pr.1 := by
        simp [step, commit, hc, Except.map]
      rw [hstep, hdb]
      intro inv hmem
      rw [show sumPayments { db with payments := db.payments ++ [pr.2] }
          inv.invoice_id = sumFor (db.payments ++ [pr.2]) inv.invoice_id from rfl]
      rw [sumFor_append, sumFor_singleton]
      by_cases heq : pr.2.invoice_id = inv.invoice_id
      · rw [if_pos heq]
        have hinv0id : inv0.invoice_id = p.invoice_id := findInvoice_id_eq hfind
        have hsame : inv0 = inv := by
          apply List.inj_on_of_nodup_map hnodup (findInvoice_mem hfind) hmem
          rw [hinv0id, ← hpid, heq]
        subst hsame
        rw [hpam]
        rw [show inv0.invoice_id = inv0.invoice_id from rfl] at hle
        exact le_trans (by omega) hle
      · rw [if_neg heq]
        simpa using hinv inv hmem
  | opDeletePayment id =>
    rcases hf : findPayment db id with _ | pay
    · exact pw_of_same (by simp [step, commit, delete_payment, hf])
        (by simp [step, commit, delete_payment, hf]) hinv
    · have hstep : step db (.opDeletePayment id) = { db with
          payments := db.payments.filter (fun p => p.payment_id ≠ id) } := by
        simp [step, commit, delete_payment, hf]
      rw [hstep]
      intro inv hmem
      exact le_trans (sumFor_filter_le _ _ _ hpos0) (hinv inv hmem)

/-- C2 counterexample: the invariant is NOT preserved by every operation:
a fully paid invoice (amount 100.00, paid 100.00) whose amount is then
updated to 50.00 ends with its payment total exceeding its amount — the
invoice amount update is not re-checked against existing payments. -/
theorem overpayment_invariant_counterexample :
    PaymentsWithin exDBPaid ∧
    ¬ PaymentsWithin (step exDBPaid (Op.opUpdateInvoice 1 exUpdHalve)) := by
  constructor
  · decide
  · decide

/-- C2 (amended): starting from a well-formed store satisfying the
invariant, the sum of each invoice's payments never exceeds its amount
after any sequence of operations in which every created invoice has a
non-negative amount and no invoice-amount update goes below that invoice's
current paid total; in particular payment creations, payment deletions and
all other entity operations can never break the invariant. -/
theorem overpayment_invariant_trace (db : DB) (ops : List Op)
    (hwf : WFdb db) (hinv : PaymentsWithin db)
    (hgood : goodTrace db ops = true) :
    PaymentsWithin (applyOps db ops) := by
  induction ops generalizing db with
  | nil => exact hinv
  | cons op rest ih =>
    simp only [goodTrace, Bool.and_eq_true] at hgood
    exact ih (step db op) (wf_step db op hwf)
      (pw_step db op hwf hinv hgood.1) hgood.2

/-- C2 witness: the invariant holds after running `exOpsTrace` from the
empty store. -/
theorem overpayment_invariant_trace_witness :
    PaymentsWithin (applyOps exDBEmpty exOpsTrace) :=
  overpayment_invariant_trace exDBEmpty exOpsTrace (by decide) (by decide)
    (by decide)

end PhotoAPI
